import Mathlib

/-!
Verification development for the tRPC-explorer static analysis core.

The development shallowly embeds the cross-file resolution and
type-inference engine of the repository: the router tree builder
(`parseRouterFromFile`, `parseRouterObject`, `resolveIdentifierAsRouter`),
the module resolver (`resolveImport`, `resolveFile`, `getTsConfigPaths`),
the schema text resolver (`resolveSchemaText`), and the procedure
analyzer (`analyzeProcedureChain` with its structural and semantic
inference strategies).

Modelling conventions:
* TypeScript AST nodes are mirrored by the `Expr` / `ObjProp` / `Stmt`
  inductive family below; `getText` models `ts.Node.getText()` under the
  convention that unmodelled expressions carry their verbatim source text
  in the `other` constructor.
* The filesystem is an explicit, immutable environment (`Env`): a finite
  association list from absolute POSIX paths to parsed source files, plus
  the parsed `tsconfig.json` contents per directory.
* The TypeScript type checker (`ts.TypeChecker` / `ts.Program`) is
  external semantic machinery; its outputs are modelled by an `Oracle`
  of rendered type texts, cut exactly at the `checker.typeToString` /
  `typeToDisplayString` boundary.  Everything on this side of the
  boundary (text extraction, sanitisation, precedence) is translated
  from the source.
* The recursion of the router tree builder terminates in the source via
  the shared visited set; the embedding makes every recursive call burn
  one unit of `fuel`, so theorems about whole builds quantify over all
  sufficiently large fuel values.
-/

set_option maxHeartbeats 1000000

namespace Trpc

/-- Property-name syntax of an object-literal member (`ts.PropertyName`):
an identifier, a string or numeric literal, or a computed name. -/
inductive PropName where
  | id (s : String)
  | str (s : String)
  | num (s : String)
  | computed (text : String)
deriving DecidableEq, Repr

/-- Type annotation on the right-hand side of a type alias: either a
`typeof name` type query (`ts.TypeQueryNode`) or anything else. -/
inductive TypeAnn where
  | typeQuery (exprName : String)
  | otherTy (text : String)
deriving DecidableEq, Repr

mutual

/-- Expressions of the analysed TypeScript sources, restricted to the
shapes the parser in `parserRouter` / `parserProcedureAnalysis`
distinguishes; every other expression is `other` with its source text. -/
inductive Expr where
  | ident (name : String)
  | propAccess (obj : Expr) (name : String)
  | call (callee : Expr) (args : List Expr)
  | strLit (value : String)
  | numLit (text : String)
  | trueLit
  | falseLit
  | nullLit
  | newExpr (callee : Expr) (args : List Expr)
  | arrayLit (elems : List ArrayElem)
  | objectLit (props : List ObjProp)
  | arrow (body : FnBody)
  | paren (e : Expr)
  | asExpr (e : Expr) (ty : String)
  | nonNull (e : Expr)
  | cond (c t f : Expr)
  | other (text : String)

/-- An element of an array literal, possibly a spread element. -/
inductive ArrayElem where
  | elem (e : Expr)
  | spread (e : Expr)

/-- Members of an object literal (`ts.ObjectLiteralElementLike`):
property assignment, shorthand property, spread assignment, or a method
declaration.  `line` models the 1-based source line of the member. -/
inductive ObjProp where
  | propAssign (name : PropName) (value : Expr) (line : Nat)
  | shorthand (name : String) (line : Nat)
  | spreadAssign (e : Expr)
  | methodDecl (name : PropName) (line : Nat)

/-- The body of an arrow function or function expression: a bare
expression or a block of statements. -/
inductive FnBody where
  | exprBody (e : Expr)
  | block (stmts : List Stmt)

/-- Statements, restricted to the shapes the parser inspects: variable
declarations (with their 1-based source line), return statements,
expression statements, import declarations (default binding plus named
bindings as pairs of local name and imported name), and type alias
declarations (with their export modifier). -/
inductive Stmt where
  | varDecl (name : String) (init : Option Expr) (line : Nat)
  | ret (e : Option Expr)
  | exprStmt (e : Expr)
  | importDecl (moduleSpecifier : String) (defaultName : Option String)
      (named : List (String × String))
  | typeAliasDecl (name : String) (exported : Bool) (ty : TypeAnn)
  | emptyStmt

end

/-- A parsed source file (`ts.SourceFile`): its top-level statements. -/
structure SrcFile where
  statements : List Stmt

/-- JavaScript string truthiness of a `string | undefined` value:
`undefined` and the empty string are falsy. -/
def truthy : Option String → Bool
  | none => false
  | some s => s ≠ ""

/-- Worker of `dedupKeepFirst`: keep elements not yet seen, in order,
recording the seen ones. -/
def dedupKeepFirstGo (seen : List String) : List String → List String
  | [] => []
  | x :: xs =>
    if seen.contains x then dedupKeepFirstGo seen xs
    else x :: dedupKeepFirstGo (x :: seen) xs

/-- Keep the first occurrence of every string, dropping later
duplicates; models `Array.from(new Set(xs))`, which preserves insertion
order. -/
def dedupKeepFirst (xs : List String) : List String :=
  dedupKeepFirstGo [] xs

/-- Remove every whitespace character; models `replace(/\s+/g, "")`. -/
def stripWhitespace (s : String) : String :=
  String.mk (s.toList.filter (fun c => ¬ c.isWhitespace))

/-- Whitespace-trim on both ends; computable replacement for
`String.trim`, modelling JavaScript `trim()`. -/
def jsTrim (s : String) : String :=
  String.mk (((s.toList.dropWhile Char.isWhitespace).reverse.dropWhile
    Char.isWhitespace).reverse)

/-- Models `String.prototype.startsWith`. -/
def jsStartsWith (s pre : String) : Bool :=
  pre.toList.isPrefixOf s.toList

/-- Models `String.prototype.endsWith`. -/
def jsEndsWith (s suf : String) : Bool :=
  suf.toList.isSuffixOf s.toList

/-- Split on the path separator `/`; computable replacement for
`splitOn "/"`. -/
def splitSlash (s : String) : List String :=
  (s.toList.foldr (fun c acc =>
    if c = '/' then [] :: acc
    else match acc with
      | [] => [[c]]
      | g :: gs => (c :: g) :: gs) [[]]).map String.mk

/-- Split on `|`; models `String.prototype.split("|")`. -/
def splitPipe (s : String) : List String :=
  (s.toList.foldr (fun c acc =>
    if c = '|' then [] :: acc
    else match acc with
      | [] => [[c]]
      | g :: gs => (c :: g) :: gs) [[]]).map String.mk

mutual

/-- Source-text rendering of an expression; models `ts.Node.getText()`.
The `other` constructor carries its verbatim text. -/
def Expr.getText : Expr → String
  | .ident n => n
  | .propAccess o n => o.getText ++ "." ++ n
  | .call c args => c.getText ++ "(" ++ String.intercalate ", " (exprListTexts args) ++ ")"
  | .strLit v => "\"" ++ v ++ "\""
  | .numLit t => t
  | .trueLit => "true"
  | .falseLit => "false"
  | .nullLit => "null"
  | .newExpr c args =>
      "new " ++ c.getText ++ "(" ++ String.intercalate ", " (exprListTexts args) ++ ")"
  | .arrayLit elems => "[" ++ String.intercalate ", " (arrayElemTexts elems) ++ "]"
  | .objectLit props => "\x7b " ++ String.intercalate ", " (objPropTexts props) ++ " \x7d"
  | .arrow body => "() => " ++ body.getText
  | .paren e => "(" ++ e.getText ++ ")"
  | .asExpr e ty => e.getText ++ " as " ++ ty
  | .nonNull e => e.getText ++ "!"
  | .cond c t f => c.getText ++ " ? " ++ t.getText ++ " : " ++ f.getText
  | .other t => t

/-- Texts of a list of expressions. -/
def exprListTexts : List Expr → List String
  | [] => []
  | e :: es => e.getText :: exprListTexts es

/-- Texts of array-literal elements. -/
def arrayElemTexts : List ArrayElem → List String
  | [] => []
  | .elem e :: es => e.getText :: arrayElemTexts es
  | .spread e :: es => ("..." ++ e.getText) :: arrayElemTexts es

/-- Texts of object-literal members. -/
def objPropTexts : List ObjProp → List String
  | [] => []
  | .propAssign n v _ :: ps => (propNameText n ++ ": " ++ v.getText) :: objPropTexts ps
  | .shorthand n _ :: ps => n :: objPropTexts ps
  | .spreadAssign e :: ps => ("..." ++ e.getText) :: objPropTexts ps
  | .methodDecl n _ :: ps => (propNameText n ++ "() \x7b\x7d") :: objPropTexts ps

/-- Source text of a property name; a string-literal name renders with
its quotes, as `getText` does. -/
def propNameText : PropName → String
  | .id s => s
  | .str s => "\"" ++ s ++ "\""
  | .num s => s
  | .computed t => "[" ++ t ++ "]"

/-- Source text of a function body. -/
def FnBody.getText : FnBody → String
  | .exprBody e => e.getText
  | .block stmts => "\x7b " ++ String.intercalate " " (stmtTexts stmts) ++ " \x7d"

/-- Texts of a list of statements. -/
def stmtTexts : List Stmt → List String
  | [] => []
  | s :: ss => s.getText :: stmtTexts ss

/-- Source text of a statement. -/
def Stmt.getText : Stmt → String
  | .varDecl n (some e) _ => "const " ++ n ++ " = " ++ e.getText ++ ";"
  | .varDecl n none _ => "const " ++ n ++ ";"
  | .ret (some e) => "return " ++ e.getText ++ ";"
  | .ret none => "return;"
  | .exprStmt e => e.getText ++ ";"
  | .importDecl spec _ _ => "import ... from \"" ++ spec ++ "\";"
  | .typeAliasDecl n _ _ => "type " ++ n ++ " = ...;"
  | .emptyStmt => ";"

end

end Trpc

namespace Trpc

/-- A local import binding of a source file (`ImportInfo` in
`lib/types`): the module specifier, the exported name bound, and
whether it is a default-import binding. -/
structure ImportInfo where
  moduleSpecifier : String
  importName : String
  isDefault : Bool
deriving DecidableEq, Repr

/-- `Map.set` on an association list: overwrite in place if the key is
present (JavaScript `Map` keeps the original insertion position),
append otherwise. -/
def mapSet {α : Type} (m : List (String × α)) (k : String) (v : α) :
    List (String × α) :=
  if m.any (fun p => p.1 = k) then
    m.map (fun p => if p.1 = k then (k, v) else p)
  else m ++ [(k, v)]

/-- Collect the import bindings of a source file; models `getImports`:
a default import binds the local name to the `"default"` export, a
named import binds the local name to its imported (property) name. -/
def getImports (sf : SrcFile) : List (String × ImportInfo) :=
  sf.statements.foldl (fun result stmt =>
    match stmt with
    | .importDecl spec defaultName named =>
      let result :=
        match defaultName with
        | some n =>
            mapSet result n
              { moduleSpecifier := spec, importName := "default", isDefault := true }
        | none => result
      named.foldl (fun r p =>
        mapSet r p.1
          { moduleSpecifier := spec, importName := p.2, isDefault := false }) result
    | _ => result) []

/-- Directory of an absolute POSIX path; models Node's `path.dirname`
for the absolute paths this analysis works with. -/
def dirname (p : String) : String :=
  let segs := (splitSlash p).filter (fun s => s ≠ "")
  if segs.dropLast.isEmpty then "/"
  else "/" ++ String.intercalate "/" segs.dropLast

/-- Normalise path segments: drop empty and `.` segments, resolve `..`
against the accumulated prefix. -/
def normalizeSegs (segs : List String) : List String :=
  segs.foldl (fun acc s =>
    if s = "" ∨ s = "." then acc
    else if s = ".." then acc.dropLast
    else acc ++ [s]) []

/-- Models Node's `path.resolve base rel` (and `path.join` for the
joins used here) for an absolute `base`: an absolute `rel` wins,
otherwise `rel` is appended to `base` and the result normalised. -/
def pathResolve (base rel : String) : String :=
  let allSegs :=
    if jsStartsWith rel "/" then splitSlash rel
    else splitSlash base ++ splitSlash rel
  let segs := normalizeSegs allSegs
  if segs.isEmpty then "/" else "/" ++ String.intercalate "/" segs

/-- The `paths` table and `baseUrl` of the nearest `tsconfig.json`
(`TsConfigPaths` in `lib/types`); `baseUrl` is already resolved against
the directory of the configuration file. -/
structure TsConfigPaths where
  paths : List (String × List String)
  baseUrl : String
deriving DecidableEq, Repr

/-- The parseable content of one `tsconfig.json` on disk: its
`compilerOptions.paths` table (in declaration order, as
`Object.entries` iterates it) and its optional `compilerOptions.baseUrl`. -/
structure TsConfigRaw where
  paths : List (String × List String)
  baseUrl : Option String
deriving DecidableEq, Repr

/-- The immutable filesystem environment of one analysis: the existing
regular source files (keyed by absolute path, already parsed — the
TypeScript parser accepts any byte sequence) and, per directory, the
parse result of a `tsconfig.json` located there (`none` value = file
present but unreadable, invalid JSON, or without a `paths` object). -/
structure Env where
  files : List (String × SrcFile)
  tsconfigs : List (String × Option TsConfigRaw)

/-- `fs.existsSync` (together with `statSync(..).isFile()`): membership
in the environment's file table. -/
def Env.fileExists (env : Env) (p : String) : Bool :=
  (env.files.lookup p).isSome

/-- Reading and parsing a source file: `fs.readFileSync` followed by
`ts.createSourceFile`. -/
def Env.sourceFile (env : Env) (p : String) : Option SrcFile :=
  env.files.lookup p

/-- Models `resolveFile`: accept the first existing candidate among the
base itself, the base with `.ts` / `.tsx` appended, and an `index.ts` /
`index.tsx` inside the base taken as a directory. -/
def resolveFile (env : Env) (base : String) : Option String :=
  let candidates := [base, base ++ ".ts", base ++ ".tsx",
    pathResolve base "index.ts", pathResolve base "index.tsx"]
  candidates.find? (fun c => env.fileExists c)

/-- One step of the parent-directory walk of `getTsConfigPaths`.  The
walk stops without a match at the filesystem root (the loop condition
`dir !== root` never examines the root itself); at the first directory
holding a `tsconfig.json` it stops with that file's parse result.  The
process-wide memo cache of the source is a pure memoisation over this
immutable environment and is modelled away; `fuel` bounds the walk and
is always instantiated with enough segments to reach the root. -/
def getTsConfigPathsGo (env : Env) : Nat → String → Option TsConfigPaths
  | 0, _ => none
  | fuel + 1, dir =>
    if dir = "/" then none
    else
      match env.tsconfigs.lookup dir with
      | some parsed =>
        match parsed with
        | some raw =>
            some { paths := raw.paths,
                   baseUrl := pathResolve dir (raw.baseUrl.getD ".") }
        | none => none
      | none => getTsConfigPathsGo env fuel (dirname dir)

/-- Models `getTsConfigPaths`: walk parent directories from the file's
directory towards the root, stopping at the first `tsconfig.json`. -/
def getTsConfigPaths (env : Env) (fromFilePath : String) : Option TsConfigPaths :=
  getTsConfigPathsGo env ((splitSlash fromFilePath).length + 1) (dirname fromFilePath)

end Trpc

namespace Trpc

/-- Strip one trailing `*` from a pattern or substitution; models
`replace(/\*$/, "")`. -/
def stripTrailingStar (s : String) : String :=
  if jsEndsWith s "*" then s.dropRight 1 else s

/-- Inner loop of the non-relative branch of `resolveImport`: append
the wildcard remainder to each substitution in declared order and take
the first substitution whose resolved base names an existing file. -/
def resolveImportMappings (env : Env) (baseUrl rest : String) :
    List String → Option String
  | [] => none
  | mapping :: ms =>
    let mappedPath := stripTrailingStar mapping ++ rest
    match resolveFile env (pathResolve baseUrl mappedPath) with
    | some resolved => some resolved
    | none => resolveImportMappings env baseUrl rest ms

/-- Outer loop of the non-relative branch of `resolveImport`: try the
`paths` patterns in declared (`Object.entries`) order; a pattern whose
literal prefix (the pattern minus a trailing `*`) starts the specifier
is tried, and if none of its substitutions resolves, the scan continues
with the following patterns. -/
def resolveImportPatterns (env : Env) (baseUrl specifier : String) :
    List (String × List String) → Option String
  | [] => none
  | (pattern, mappings) :: ps =>
    let prefixStr := stripTrailingStar pattern
    if jsStartsWith specifier prefixStr then
      match resolveImportMappings env baseUrl
          (specifier.drop prefixStr.length) mappings with
      | some r => some r
      | none => resolveImportPatterns env baseUrl specifier ps
    else resolveImportPatterns env baseUrl specifier ps

/-- Models `resolveImport`: relative specifiers resolve against the
importing file's directory; non-relative specifiers go through the
nearest `tsconfig.json` path mappings. -/
def resolveImport (env : Env) (specifier fromFilePath : String) : Option String :=
  if jsStartsWith specifier "." then
    resolveFile env (pathResolve (dirname fromFilePath) specifier)
  else
    match getTsConfigPaths env fromFilePath with
    | none => none
    | some cfg => resolveImportPatterns env cfg.baseUrl specifier cfg.paths

/-- A variable declaration that carries an initializer, as found by the
recursive AST visits of `parserRouter` (name, initializer, line). -/
structure VarDeclInfo where
  name : String
  init : Expr
  line : Nat

mutual

/-- Variable declarations (with initializer) in one statement, in
pre-order; models the `ts.forEachChild` visits of
`findVariableInitializer` / `findVariableDeclarationInfo`. -/
def stmtVarDecls : Stmt → List VarDeclInfo
  | .varDecl n (some e) line => { name := n, init := e, line := line } :: exprVarDecls e
  | .varDecl _ none _ => []
  | .ret (some e) => exprVarDecls e
  | .ret none => []
  | .exprStmt e => exprVarDecls e
  | .importDecl _ _ _ => []
  | .typeAliasDecl _ _ _ => []
  | .emptyStmt => []

/-- Variable declarations in a statement list, in order. -/
def stmtListVarDecls : List Stmt → List VarDeclInfo
  | [] => []
  | s :: ss => stmtVarDecls s ++ stmtListVarDecls ss

/-- Variable declarations nested in an expression, in pre-order. -/
def exprVarDecls : Expr → List VarDeclInfo
  | .ident _ => []
  | .propAccess o _ => exprVarDecls o
  | .call c args => exprVarDecls c ++ exprListVarDecls args
  | .strLit _ => []
  | .numLit _ => []
  | .trueLit => []
  | .falseLit => []
  | .nullLit => []
  | .newExpr c args => exprVarDecls c ++ exprListVarDecls args
  | .arrayLit elems => arrayElemVarDecls elems
  | .objectLit props => objPropVarDecls props
  | .arrow body => fnBodyVarDecls body
  | .paren e => exprVarDecls e
  | .asExpr e _ => exprVarDecls e
  | .nonNull e => exprVarDecls e
  | .cond c t f => exprVarDecls c ++ exprVarDecls t ++ exprVarDecls f
  | .other _ => []

/-- Variable declarations nested in an expression list. -/
def exprListVarDecls : List Expr → List VarDeclInfo
  | [] => []
  | e :: es => exprVarDecls e ++ exprListVarDecls es

/-- Variable declarations nested in array-literal elements. -/
def arrayElemVarDecls : List ArrayElem → List VarDeclInfo
  | [] => []
  | .elem e :: es => exprVarDecls e ++ arrayElemVarDecls es
  | .spread e :: es => exprVarDecls e ++ arrayElemVarDecls es

/-- Variable declarations nested in object-literal members. -/
def objPropVarDecls : List ObjProp → List VarDeclInfo
  | [] => []
  | .propAssign _ v _ :: ps => exprVarDecls v ++ objPropVarDecls ps
  | .shorthand _ _ :: ps => objPropVarDecls ps
  | .spreadAssign e :: ps => exprVarDecls e ++ objPropVarDecls ps
  | .methodDecl _ _ :: ps => objPropVarDecls ps

/-- Variable declarations nested in a function body. -/
def fnBodyVarDecls : FnBody → List VarDeclInfo
  | .exprBody e => exprVarDecls e
  | .block ss => stmtListVarDecls ss

end

/-- Models `findVariableInitializer`: source text of the initializer of
the first declaration (in visit order) of `varName`. -/
def findVariableInitializer (sf : SrcFile) (varName : String) : Option String :=
  ((stmtListVarDecls sf.statements).find? (fun d => d.name = varName)).map
    (fun d => d.init.getText)

/-- Models `findVariableDeclarationInfo`: initializer expression and
1-based line of the first declaration (in visit order) of `varName`. -/
def findVariableDeclarationInfo (sf : SrcFile) (varName : String) :
    Option VarDeclInfo :=
  (stmtListVarDecls sf.statements).find? (fun d => d.name = varName)

mutual

/-- Type alias declarations (name, export flag, right-hand side) in one
statement, in pre-order; models the `ts.forEachChild` visit of
`findAppRoutersInFile`. -/
def stmtTypeAliases : Stmt → List (String × Bool × TypeAnn)
  | .typeAliasDecl n ex ty => [(n, ex, ty)]
  | .varDecl _ (some e) _ => exprTypeAliases e
  | .varDecl _ none _ => []
  | .ret (some e) => exprTypeAliases e
  | .ret none => []
  | .exprStmt e => exprTypeAliases e
  | .importDecl _ _ _ => []
  | .emptyStmt => []

/-- Type alias declarations in a statement list. -/
def stmtListTypeAliases : List Stmt → List (String × Bool × TypeAnn)
  | [] => []
  | s :: ss => stmtTypeAliases s ++ stmtListTypeAliases ss

/-- Type alias declarations nested in an expression. -/
def exprTypeAliases : Expr → List (String × Bool × TypeAnn)
  | .ident _ => []
  | .propAccess o _ => exprTypeAliases o
  | .call c args => exprTypeAliases c ++ exprListTypeAliases args
  | .strLit _ => []
  | .numLit _ => []
  | .trueLit => []
  | .falseLit => []
  | .nullLit => []
  | .newExpr c args => exprTypeAliases c ++ exprListTypeAliases args
  | .arrayLit elems => arrayElemTypeAliases elems
  | .objectLit props => objPropTypeAliases props
  | .arrow body => fnBodyTypeAliases body
  | .paren e => exprTypeAliases e
  | .asExpr e _ => exprTypeAliases e
  | .nonNull e => exprTypeAliases e
  | .cond c t f => exprTypeAliases c ++ exprTypeAliases t ++ exprTypeAliases f
  | .other _ => []

/-- Type alias declarations nested in an expression list. -/
def exprListTypeAliases : List Expr → List (String × Bool × TypeAnn)
  | [] => []
  | e :: es => exprTypeAliases e ++ exprListTypeAliases es

/-- Type alias declarations nested in array-literal elements. -/
def arrayElemTypeAliases : List ArrayElem → List (String × Bool × TypeAnn)
  | [] => []
  | .elem e :: es => exprTypeAliases e ++ arrayElemTypeAliases es
  | .spread e :: es => exprTypeAliases e ++ arrayElemTypeAliases es

/-- Type alias declarations nested in object-literal members. -/
def objPropTypeAliases : List ObjProp → List (String × Bool × TypeAnn)
  | [] => []
  | .propAssign _ v _ :: ps => exprTypeAliases v ++ objPropTypeAliases ps
  | .shorthand _ _ :: ps => objPropTypeAliases ps
  | .spreadAssign e :: ps => exprTypeAliases e ++ objPropTypeAliases ps
  | .methodDecl _ _ :: ps => objPropTypeAliases ps

/-- Type alias declarations nested in a function body. -/
def fnBodyTypeAliases : FnBody → List (String × Bool × TypeAnn)
  | .exprBody e => exprTypeAliases e
  | .block ss => stmtListTypeAliases ss

end

/-- Models `findAppRoutersInFile`: collect, over the whole file, the
`typeof` target names of type alias declarations whose alias name is
exactly `AppRouter` and whose right-hand side is a type query; results
deduplicated in insertion order (a `Set` is used in the source).  A
missing file yields the empty list. -/
def findAppRoutersInFile (env : Env) (filePath : String) : List String :=
  match env.sourceFile filePath with
  | none => []
  | some sf =>
    dedupKeepFirst ((stmtListTypeAliases sf.statements).filterMap (fun t =>
      if t.1 = "AppRouter" then
        match t.2.2 with
        | .typeQuery n => some n
        | .otherTy _ => none
      else none))

/-- Models `findAppRouterInFile`: first discovered root alias target. -/
def findAppRouterInFile (env : Env) (filePath : String) : Option String :=
  (findAppRoutersInFile env filePath).head?

end Trpc

namespace Trpc

/-- First character class of the identifier regex
`[A-Za-z_$]`. -/
def isIdentStart (c : Char) : Bool :=
  c.isAlpha ∨ c = '_' ∨ c = '$'

/-- Continuation character class `[\w$]` = `[A-Za-z0-9_$]`. -/
def isIdentChar (c : Char) : Bool :=
  c.isAlphanum ∨ c = '_' ∨ c = '$'

/-- Models the match `^([A-Za-z_$][\w$]*)([\s\S]*)$`: split a text into
its leading identifier (greedy) and the remaining suffix. -/
def matchIdentifier (s : String) : Option (String × String) :=
  match s.toList with
  | [] => none
  | c :: cs =>
    if isIdentStart c then
      some (String.mk (c :: cs.takeWhile isIdentChar),
            String.mk (cs.dropWhile isIdentChar))
    else none

/-- Result of resolving an identifier to a variable initializer
(`IdentifierResolution` in `lib/types`): the initializer text and the
file context it was found in. -/
structure IdentifierResolution where
  text : String
  filePath : String
  sourceFile : SrcFile
  imports : List (String × ImportInfo)

/-- Models `resolveIdentifierFull`: resolve a name to a variable
initializer, first as a local declaration of the current file, else by
following the name's import binding into the resolved target file. -/
def resolveIdentifierFull (env : Env) (name : String) (sf : SrcFile)
    (imports : List (String × ImportInfo)) (filePath : String) :
    Option IdentifierResolution :=
  let localDef := findVariableInitializer sf name
  if truthy localDef then
    some { text := localDef.getD "", filePath := filePath,
           sourceFile := sf, imports := imports }
  else
    match imports.lookup name with
    | none => none
    | some importInfo =>
      match resolveImport env importInfo.moduleSpecifier filePath with
      | none => none
      | some resolvedPath =>
        match env.sourceFile resolvedPath with
        | none => none
        | some importSf =>
          let importImports := getImports importSf
          let targetVar := if importInfo.isDefault then name
                           else importInfo.importName
          let definition := findVariableInitializer importSf targetVar
          if truthy definition then
            some { text := definition.getD "", filePath := resolvedPath,
                   sourceFile := importSf, imports := importImports }
          else none

/-- Worker of `resolveSchemaText`, structurally recursive on the
remaining budget `6 - depth`: the source guard `depth > 5` is exactly
`remaining = 0`, and the recursive call at `depth + 1` is the call at
`remaining - 1`. -/
def resolveSchemaTextGo (env : Env) :
    Nat → String → SrcFile → List (String × ImportInfo) → String → String
  | 0, schemaText, _, _, _ => schemaText
  | remaining + 1, schemaText, sf, imports, filePath =>
    let trimmed := jsTrim schemaText
    if jsStartsWith trimmed "z." ∨ jsStartsWith trimmed "\x7b" then trimmed
    else
      match matchIdentifier trimmed with
      | none => trimmed
      | some (identifier, suffix) =>
        match resolveIdentifierFull env identifier sf imports filePath with
        | none => trimmed
        | some resolved =>
          let substituted := resolved.text ++ suffix
          if jsStartsWith substituted "z." then substituted
          else
            resolveSchemaTextGo env remaining substituted resolved.sourceFile
              resolved.imports resolved.filePath

/-- Models `resolveSchemaText`: a text that already looks like a
schema-builder call (`z.`) or an inline literal (`{`) is returned
trimmed; otherwise its leading identifier is resolved to an initializer
and the trailing suffix spliced on, recursing in the context of the
file the initializer was found in.  Recursion is cut off at depth 5:
deeper calls return the accumulated text unchanged. -/
def resolveSchemaText (env : Env) (schemaText : String) (sf : SrcFile)
    (imports : List (String × ImportInfo)) (filePath : String)
    (depth : Nat) : String :=
  resolveSchemaTextGo env (6 - depth) schemaText sf imports filePath

/-- Models `isRouterCall`: a call whose callee is a property access
named `router`, or a bare identifier `router` / `createTRPCRouter`. -/
def isRouterCall (callee : Expr) : Bool :=
  match callee with
  | .propAccess _ name => name = "router"
  | .ident n => n = "router" ∨ n = "createTRPCRouter"
  | _ => false

/-- Models `findMethodInChain`: walk backwards through the receiver of
a method chain; the first call named `methodName` with at least one
argument yields that argument's source text. -/
def findMethodInChain : Expr → String → Option String
  | .call callee args, methodName =>
    match callee with
    | .propAccess recv name =>
      if name = methodName ∧ args.length > 0 then
        args.head?.map Expr.getText
      else findMethodInChain recv methodName
    | _ => none
  | _, _ => none

end Trpc

namespace Trpc

/-- The apostrophe quote character. -/
def singleQuoteChar : Char := Char.ofNat 39

/-- The backtick quote character. -/
def backtickChar : Char := Char.ofNat 96

/-- The three JavaScript string quote characters recognised by the
balanced-delimiter scanners. -/
def isQuoteChar (c : Char) : Bool :=
  c = singleQuoteChar ∨ c = '"' ∨ c = backtickChar

/-- Models `isNonInformativeInferredType`: after removing whitespace,
the text is empty, or every `|`-separated part is one of the
uninformative forms (`any`, `any[]`, `unknown`, `unknown[]`, or an open
unknown index signature). -/
def isNonInformativeInferredType (typeText : String) : Bool :=
  let compact := jsTrim (stripWhitespace typeText)
  if compact = "" then true
  else
    (splitPipe compact).all (fun part =>
      part = "any" ∨ part = "any[]" ∨ part = "unknown" ∨ part = "unknown[]" ∨
      part = "\x7b[key:string]:unknown;\x7d" ∨
      part = "\x7b[key:string]:unknown\x7d")

/-- The characters after the first occurrence of `target`, if any. -/
def afterFirstChar (target : Char) : List Char → Option (List Char)
  | [] => none
  | c :: rest => if c = target then some rest else afterFirstChar target rest

/-- Scan for the `>` matching an already-consumed `<` (depth starts at
1), accumulating the characters in between. -/
def extractGenericScan : List Char → Nat → List Char → Option String
  | [], _, _ => none
  | c :: rest, depth, acc =>
    if c = '<' then extractGenericScan rest (depth + 1) (acc ++ [c])
    else if c = '>' then
      if depth = 1 then some (jsTrim (String.mk acc))
      else extractGenericScan rest (depth - 1) (acc ++ [c])
    else extractGenericScan rest depth (acc ++ [c])

/-- Models `extractTopLevelGenericArg`: the trimmed text between the
first `<` and its matching `>`, tracking angle-bracket depth only. -/
def extractTopLevelGenericArg (typeText : String) : Option String :=
  match afterFirstChar '<' typeText.toList with
  | none => none
  | some rest => extractGenericScan rest 1 []

/-- One attempt to match `import\([^)]*\)\.` at the head of the list;
on success, the remainder after the match. -/
def matchImportQualifier (cs : List Char) : Option (List Char) :=
  if ("import(".toList).isPrefixOf cs then
    let afterOpen := cs.drop 7
    match afterOpen.dropWhile (fun c => c ≠ ')') with
    | ')' :: '.' :: rest => some rest
    | _ => none
  else none

/-- Remove every occurrence of `import(...).` (the global regex
replace in `sanitizeTypeText`).  Each step consumes at least one
character, so the input length is enough fuel. -/
def removeImportQualifiersGo : Nat → List Char → List Char
  | 0, cs => cs
  | _ + 1, [] => []
  | fuel + 1, c :: rest =>
    match matchImportQualifier (c :: rest) with
    | some after => removeImportQualifiersGo fuel after
    | none => c :: removeImportQualifiersGo fuel rest

/-- Models `typeText.replace(/import\([^)]*\)\./g, "")`. -/
def removeImportQualifiers (s : String) : String :=
  String.mk (removeImportQualifiersGo s.length s.toList)

/-- Does `sub` occur as a contiguous run in the list? -/
def listHasInfix (sub : List Char) : List Char → Bool
  | [] => sub.isEmpty
  | c :: rest => sub.isPrefixOf (c :: rest) ∨ listHasInfix sub rest

/-- `true` when `sub` occurs somewhere in `s`; models
`String.prototype.includes`. -/
def containsSubstr (s sub : String) : Bool :=
  listHasInfix sub.toList s.toList

/-- Wrapper-name character class `[\w$.]` of the head match in
`unwrapKnownWrapperTypes`. -/
def isWrapperNameChar (c : Char) : Bool :=
  isIdentChar c ∨ c = '.'

/-- Head match of `unwrapKnownWrapperTypes`: does the text have the
shape `Name<...>` (regex `^([A-Za-z_$][\w$.]*)\s*<([\s\S]+)>$`)?  On
success, the wrapper name. -/
def wrapperHeadMatch (current : String) : Option String :=
  match current.toList with
  | [] => none
  | c :: cs =>
    if isIdentStart c then
      let nameChars := c :: cs.takeWhile isWrapperNameChar
      let rest := (cs.dropWhile isWrapperNameChar).dropWhile Char.isWhitespace
      match rest with
      | '<' :: inner =>
        if inner.length ≥ 2 ∧ inner.getLast? = some '>' then
          some (String.mk nameChars)
        else none
      | _ => none
    else none

/-- The `while (true)` loop of `unwrapKnownWrapperTypes`; each
iteration replaces the text by a strictly shorter generic argument, so
the input length is enough fuel. -/
def unwrapKnownWrapperTypesGo : Nat → String → String
  | 0, current => current
  | fuel + 1, current =>
    match wrapperHeadMatch current with
    | none => current
    | some wrapper =>
      match extractTopLevelGenericArg current with
      | none => current
      | some genericArg =>
        if jsEndsWith wrapper ".PrismaPromise" ∨ wrapper = "PrismaPromise" ∨
           wrapper = "Promise" ∨ containsSubstr wrapper "Prisma__" then
          unwrapKnownWrapperTypesGo fuel (jsTrim genericArg)
        else current

/-- Models `unwrapKnownWrapperTypes`: peel known promise-like or
ORM-promise-like wrapper generics down to their payload type. -/
def unwrapKnownWrapperTypes (typeText : String) : String :=
  unwrapKnownWrapperTypesGo (typeText.length + 1) (jsTrim typeText)

/-- Models `sanitizeTypeText`: drop falsy input, strip inlined
`import(...)` qualifiers, unwrap known wrapper generics, trim. -/
def sanitizeTypeText (typeText : Option String) : Option String :=
  if ¬ truthy typeText then none
  else
    let withoutImports := jsTrim (removeImportQualifiers (typeText.getD ""))
    some (jsTrim (unwrapKnownWrapperTypes withoutImports))

end Trpc

namespace Trpc

/-- Word-character test `[A-Za-z0-9_$]` used at field-name boundaries
in `extractTopLevelObjectFieldType`. -/
def isWordChar (c : Char) : Bool :=
  isIdentChar c

/-- The value scan of `extractTopLevelObjectFieldType`: consume the
field's value text until a `;` or `,` at depth zero, a `}` closing the
enclosing object (all depths zero), or the end of the text, tracking
brace/angle/bracket/paren depth and skipping quoted sections
(backslash escapes the next character). -/
def valueScan : List Char → List Char → Int → Int → Int → Int →
    Option Char → String
  | [], acc, _, _, _, _, _ => jsTrim (String.mk acc.reverse)
  | c :: rest, acc, vB, vA, vK, vP, vStr =>
    match vStr with
    | some q =>
      if c = '\\' then
        match rest with
        | [] => jsTrim (String.mk (c :: acc).reverse)
        | n :: rest2 => valueScan rest2 (n :: c :: acc) vB vA vK vP (some q)
      else if c = q then valueScan rest (c :: acc) vB vA vK vP none
      else valueScan rest (c :: acc) vB vA vK vP (some q)
    | none =>
      if isQuoteChar c then valueScan rest (c :: acc) vB vA vK vP (some c)
      else if c = '\x7b' then valueScan rest (c :: acc) (vB + 1) vA vK vP none
      else if c = '\x7d' then
        if vB = 0 ∧ vA = 0 ∧ vK = 0 ∧ vP = 0 then jsTrim (String.mk acc.reverse)
        else valueScan rest (c :: acc) (vB - 1) vA vK vP none
      else if c = '<' then valueScan rest (c :: acc) vB (vA + 1) vK vP none
      else if c = '>' then valueScan rest (c :: acc) vB (max 0 (vA - 1)) vK vP none
      else if c = '[' then valueScan rest (c :: acc) vB vA (vK + 1) vP none
      else if c = ']' then valueScan rest (c :: acc) vB vA (vK - 1) vP none
      else if c = '(' then valueScan rest (c :: acc) vB vA vK (vP + 1) none
      else if c = ')' then valueScan rest (c :: acc) vB vA vK (vP - 1) none
      else if (c = ';' ∨ c = ',') ∧ vB = 0 ∧ vA = 0 ∧ vK = 0 ∧ vP = 0 then
        jsTrim (String.mk acc.reverse)
      else valueScan rest (c :: acc) vB vA vK vP none

/-- The cursor dance after a matched field name: skip whitespace, an
optional `?`, more whitespace; a `:` must follow, and the remainder
(with leading whitespace dropped) is where the value starts.  `none`
when the `:` is missing, in which case the outer scan continues at the
next character. -/
def afterFieldColon (cs : List Char) : Option (List Char) :=
  let cs1 := cs.dropWhile Char.isWhitespace
  let cs2 := match cs1 with
    | '?' :: r => r
    | _ => cs1
  let cs3 := cs2.dropWhile Char.isWhitespace
  match cs3 with
  | ':' :: r => some (r.dropWhile Char.isWhitespace)
  | _ => none

/-- The main character loop of `extractTopLevelObjectFieldType`:
depth-tracked, string-aware scan for `fieldName` at brace depth 1 (all
other depths zero), with word-boundary checks against the previous and
following characters; on a match followed by `? :`, the value scan
produces the result. -/
def fieldScan : List Char → List Char → Option Char → Int → Int → Int →
    Int → Option Char → Option String
  | [], _, _, _, _, _, _, _ => none
  | c :: rest, field, _, dB, dA, dK, dP, some q =>
    if c = '\\' then
      match rest with
      | [] => none
      | n :: rest2 => fieldScan rest2 field (some n) dB dA dK dP (some q)
    else if c = q then fieldScan rest field (some c) dB dA dK dP none
    else fieldScan rest field (some c) dB dA dK dP (some q)
  | c :: rest, field, prev, dB, dA, dK, dP, none =>
    if isQuoteChar c then fieldScan rest field (some c) dB dA dK dP (some c)
    else if c = '\x7b' then fieldScan rest field (some c) (dB + 1) dA dK dP none
    else if c = '\x7d' then fieldScan rest field (some c) (dB - 1) dA dK dP none
    else if c = '<' then fieldScan rest field (some c) dB (dA + 1) dK dP none
    else if c = '>' then fieldScan rest field (some c) dB (max 0 (dA - 1)) dK dP none
    else if c = '[' then fieldScan rest field (some c) dB dA (dK + 1) dP none
    else if c = ']' then fieldScan rest field (some c) dB dA (dK - 1) dP none
    else if c = '(' then fieldScan rest field (some c) dB dA dK (dP + 1) none
    else if c = ')' then fieldScan rest field (some c) dB dA dK (dP - 1) none
    else if dB ≠ 1 ∨ dA ≠ 0 ∨ dK ≠ 0 ∨ dP ≠ 0 then
      fieldScan rest field (some c) dB dA dK dP none
    else if field.isPrefixOf (c :: rest) then
      let before := prev
      let after := ((c :: rest).drop field.length).head?
      if (before.elim false isWordChar : Bool) ∨
         (after.elim false isWordChar : Bool) then
        fieldScan rest field (some c) dB dA dK dP none
      else
        match afterFieldColon ((c :: rest).drop field.length) with
        | some valueChars => some (valueScan valueChars [] 0 0 0 0 none)
        | none => fieldScan rest field (some c) dB dA dK dP none
    else fieldScan rest field (some c) dB dA dK dP none

/-- Models `extractTopLevelObjectFieldType`: from an object type text
`{ ... }`, extract the balanced value text of the named field found at
top level (brace depth 1), honouring an optional `?`, quoted sections
and nested delimiters; `none` when the text is not an object literal
or the field is absent. -/
def extractTopLevelObjectFieldType (objectText fieldName : String) :
    Option String :=
  let text := jsTrim objectText
  if ¬ jsStartsWith text "\x7b" then none
  else fieldScan text.toList fieldName.toList none 0 0 0 0 none

end Trpc

namespace Trpc

/-- The primitive alternatives of the schema-guessing regex, in the
order the alternation lists them.  No alternative is a prefix of
another, so at most one can match at a given position. -/
def primAlternatives : List String :=
  ["string", "number", "boolean", "date", "bigint", "unknown", "any",
   "null", "undefined"]

/-- Match one primitive alternative at the head of the text. -/
def matchPrimAlt (cs : List Char) : Option (String × List Char) :=
  primAlternatives.findSome? (fun alt =>
    if alt.toList.isPrefixOf cs then some (alt, cs.drop alt.length) else none)

/-- Does `field\s*:\s*z\.(primitive)\s*\(` match at the head of the
text?  On success, the primitive name captured. -/
def matchGuessBase (field cs : List Char) : Option String :=
  if field.isPrefixOf cs then
    match (cs.drop field.length).dropWhile Char.isWhitespace with
    | ':' :: r2 =>
      let r3 := r2.dropWhile Char.isWhitespace
      if ['z', '.'].isPrefixOf r3 then
        match matchPrimAlt (r3.drop 2) with
        | some (prim, r4) =>
          match r4.dropWhile Char.isWhitespace with
          | '(' :: _ => some prim
          | _ => none
        | none => none
      else none
    | _ => none
  else none

/-- Scan every position for the base pattern of
`guessInputFieldTypeFromSchema`; first match wins, as with an
unanchored regex. -/
def scanGuessBase (field : List Char) : List Char → Option String
  | [] => matchGuessBase field []
  | c :: rest =>
    match matchGuessBase field (c :: rest) with
    | some p => some p
    | none => scanGuessBase field rest

/-- Does `.callName\s*\(` match at the head of the text? -/
def matchSuffixCall (callName cs : List Char) : Bool :=
  match cs with
  | '.' :: r1 =>
    if callName.isPrefixOf r1 then
      match (r1.drop callName.length).dropWhile Char.isWhitespace with
      | '(' :: _ => true
      | _ => false
    else false
  | _ => false

/-- Is there a `.callName\s*\(` at or after the head of the text? -/
def existsSuffixCallFrom (callName : List Char) : List Char → Bool
  | [] => false
  | c :: rest => matchSuffixCall callName (c :: rest) ∨ existsSuffixCallFrom callName rest

/-- Existence test for the regex `field[\s\S]*?\.callName\s*\(`: some
occurrence of `field` is followed, anywhere later, by `.callName(`. -/
def existsFieldThenCall (field callName : List Char) : List Char → Bool
  | [] => false
  | c :: rest =>
    (field.isPrefixOf (c :: rest) ∧
      existsSuffixCallFrom callName ((c :: rest).drop field.length)) ∨
    existsFieldThenCall field callName rest

/-- The `primitiveMap` record of `guessInputFieldTypeFromSchema`. -/
def primitiveMapLookup : String → Option String
  | "string" => some "string"
  | "number" => some "number"
  | "boolean" => some "boolean"
  | "date" => some "Date"
  | "bigint" => some "bigint"
  | "unknown" => some "unknown"
  | "any" => some "any"
  | "null" => some "null"
  | "undefined" => some "undefined"
  | _ => none

/-- Models `guessInputFieldTypeFromSchema`: pattern the field's
primitive type out of the resolved input schema text, honouring
`.optional()` (`| undefined`) and `.nullable()` (`| null`) suffixes. -/
def guessInputFieldTypeFromSchema (inputSchema : Option String)
    (fieldName : String) : Option String :=
  if ¬ truthy inputSchema then none
  else
    let cs := (inputSchema.getD "").toList
    let field := fieldName.toList
    match scanGuessBase field cs with
    | none => none
    | some base =>
      match primitiveMapLookup base with
      | none => none
      | some primitive =>
        if existsFieldThenCall field ("optional".toList) cs then
          some (primitive ++ " | undefined")
        else if existsFieldThenCall field ("nullable".toList) cs then
          some (primitive ++ " | null")
        else some primitive

/-- Models `getPropertyNameText`: identifiers print their text, string
and numeric literal names their unquoted text, computed names yield
nothing. -/
def getPropertyNameText : PropName → Option String
  | .id s => some s
  | .str s => some s
  | .num s => some s
  | .computed _ => none

/-- Models `collectReturnExpressions`: an expression body is the single
return value; a block body contributes the expressions of its return
statements.  The source visit recurses through non-function child
nodes and stops at nested function boundaries; in this statement model
nested statements occur only under function bodies, so the block's own
return statements are exactly what the visit collects. -/
def collectReturnExpressions (body : FnBody) : List Expr :=
  match body with
  | .exprBody e => [e]
  | .block stmts => stmts.filterMap (fun s =>
      match s with
      | .ret (some e) => some e
      | _ => none)

end Trpc

namespace Trpc

mutual

/-- Models `inferTypeFromExpression`: structural literal-type
inference over a return expression.  Parentheses, `as` / `satisfies`
and non-null assertions are transparent; member access on the literal
identifier `input` consults the resolved input-schema text; literals
map to their primitive names; array literals take the union of their
element types; object literals infer field-by-field records (spreads
collapse to an open index signature); conditionals take the union of
their branches; everything else is `unknown`. -/
def inferTypeFromExpression : Expr → Option String → String
  | .paren e, inp => inferTypeFromExpression e inp
  | .asExpr e _, inp => inferTypeFromExpression e inp
  | .nonNull e, inp => inferTypeFromExpression e inp
  | .propAccess obj name, inp =>
    match obj with
    | .ident objName =>
      if objName = "input" then
        match guessInputFieldTypeFromSchema inp name with
        | some guessed => guessed
        | none => "unknown"
      else "unknown"
    | _ => "unknown"
  | .strLit _, _ => "string"
  | .numLit _, _ => "number"
  | .trueLit, _ => "boolean"
  | .falseLit, _ => "boolean"
  | .nullLit, _ => "null"
  | .ident n, _ => if n = "undefined" then "undefined" else "unknown"
  | .newExpr c _, _ =>
    match c with
    | .ident n => if n = "Date" then "Date" else "unknown"
    | _ => "unknown"
  | .arrayLit [], _ => "unknown[]"
  | .arrayLit (e :: es), inp =>
    let itemTypes := inferArrayElemTypes (e :: es) inp
    match itemTypes with
    | [] => "unknown[]"
    | _ =>
      let unique := dedupKeepFirst itemTypes
      (if unique.length = 1 then unique.headD ""
       else String.intercalate " | " unique) ++ "[]"
  | .objectLit [], _ => "\x7b \x7d"
  | .objectLit (p :: ps), inp =>
    let fields0 := objFieldTexts (p :: ps) inp
    let hasSpread := (p :: ps).any (fun q =>
      match q with
      | .spreadAssign _ => true
      | _ => false)
    let fields := if hasSpread then fields0 ++ ["[key: string]: unknown;"]
                  else fields0
    match fields with
    | [] => "\x7b [key: string]: unknown; \x7d"
    | _ => "\x7b " ++ String.intercalate " " fields ++ " \x7d"
  | .cond _ t f, inp =>
    let whenTrue := inferTypeFromExpression t inp
    let whenFalse := inferTypeFromExpression f inp
    if whenTrue = whenFalse then whenTrue else whenTrue ++ " | " ++ whenFalse
  | .call _ _, _ => "unknown"
  | .arrow _, _ => "unknown"
  | .other _, _ => "unknown"

/-- Element types of an array literal; spread elements contribute
nothing (they are filtered out in the source). -/
def inferArrayElemTypes : List ArrayElem → Option String → List String
  | [], _ => []
  | .spread _ :: es, inp => inferArrayElemTypes es inp
  | .elem e :: es, inp => inferTypeFromExpression e inp :: inferArrayElemTypes es inp

/-- Field texts of an object literal: property assignments render
`key: inferredType;`, shorthand properties `key: unknown;`, method
declarations a function type; spreads and computed names contribute no
field here. -/
def objFieldTexts : List ObjProp → Option String → List String
  | [], _ => []
  | .spreadAssign _ :: ps, inp => objFieldTexts ps inp
  | .propAssign n v _ :: ps, inp =>
    match getPropertyNameText n with
    | none => objFieldTexts ps inp
    | some key =>
      (key ++ ": " ++ inferTypeFromExpression v inp ++ ";") :: objFieldTexts ps inp
  | .shorthand n _ :: ps, inp => (n ++ ": unknown;") :: objFieldTexts ps inp
  | .methodDecl n _ :: ps, inp =>
    match getPropertyNameText n with
    | none => objFieldTexts ps inp
    | some key =>
      (key ++ ": (...args: unknown[]) => unknown;") :: objFieldTexts ps inp

end

/-- The outputs of the external TypeScript type checker, cut exactly at
the rendering boundary of the source.  `procedureTypeText filePath
node` models the chain `getTypeCheckerContext` → `getProgramSourceFile`
→ `findNodeByRange` → `checker.getTypeAtLocation` →
`checker.typeToString` applied to the whole procedure call in
`inferSchemasFromProcedureType` (`none` models any failing step:
missing tsconfig, failed program construction, unmatched node, no
type).  `displayTypeOf filePath expr` models the same chain ending in
`typeToDisplayString` applied to a return expression in
`inferTypeFromTypeChecker`.  `resolveEnumAliases` models
`resolveEnumAliasesInText`, the checker-backed rewriting of enum
references into string-literal unions (with its process-wide memo). -/
structure Oracle where
  procedureTypeText : String → Expr → Option String
  displayTypeOf : String → Expr → Option String
  resolveEnumAliases : String → String

/-- Models `inferTypeFromTypeChecker`: render the semantic type of a
return expression, sanitise it, and rewrite enum aliases; `none` when
the checker yields nothing or sanitisation leaves nothing. -/
def inferTypeFromTypeChecker (o : Oracle) (expr : Expr) (filePath : String) :
    Option String :=
  match o.displayTypeOf filePath expr with
  | none => none
  | some typeText =>
    let sanitized := sanitizeTypeText (some typeText)
    if truthy sanitized then some (o.resolveEnumAliases (sanitized.getD ""))
    else none

/-- The input/output pair extracted from the procedure's own generic
type by `inferSchemasFromProcedureType`. -/
structure ProcedureTypeSchemas where
  inputSchema : Option String
  outputSchema : Option String
deriving DecidableEq, Repr

/-- Models `inferSchemasFromProcedureType`: render the whole call's
semantic type, take its outermost generic argument, extract the
`input` / `output` fields by the balanced scan, sanitise them; `none`
when the checker yields nothing, there is no generic argument, or
neither field is found. -/
def inferSchemasFromProcedureType (o : Oracle) (node : Expr)
    (filePath : String) : Option ProcedureTypeSchemas :=
  match o.procedureTypeText filePath node with
  | none => none
  | some typeText =>
    match extractTopLevelGenericArg typeText with
    | none => none
    | some genericArg =>
      let inputSchema := sanitizeTypeText
        (extractTopLevelObjectFieldType genericArg "input")
      let outputSchema0 := sanitizeTypeText
        (extractTopLevelObjectFieldType genericArg "output")
      if ¬ truthy inputSchema ∧ ¬ truthy outputSchema0 then none
      else
        let outputSchema :=
          if truthy outputSchema0 then outputSchema0.map o.resolveEnumAliases
          else outputSchema0
        some { inputSchema := inputSchema, outputSchema := outputSchema }

/-- Models `inferOutputSchemaFromResolver`: when the procedure's first
argument is an inline function, structurally infer a type for every
collected return expression, fall back to the type checker for the
uninformative ones, keep the informative results, and join the
deduplicated texts with `|`. -/
def inferOutputSchemaFromResolver (o : Oracle) (node : Expr)
    (filePath : String) (inputSchema : Option String) : Option String :=
  match node with
  | .call _ args =>
    match args.head? with
    | none => none
    | some resolver =>
      match resolver with
      | .arrow body =>
        let returnExpressions := collectReturnExpressions body
        if returnExpressions.isEmpty then none
        else
          let inferredTypes := returnExpressions.foldl (fun acc expr =>
            let inferred0 := inferTypeFromExpression expr inputSchema
            let inferred : Option String :=
              if inferred0 = "" ∨ isNonInformativeInferredType inferred0 then
                inferTypeFromTypeChecker o expr filePath
              else some inferred0
            match inferred with
            | some t =>
              if t ≠ "" ∧ ¬ isNonInformativeInferredType t then acc ++ [t]
              else acc
            | none => acc) []
          if inferredTypes.isEmpty then none
          else
            let unique := dedupKeepFirst inferredTypes
            some (if unique.length = 1 then unique.headD ""
                  else String.intercalate " | " unique)
      | _ => none
  | _ => none

/-- The result of `analyzeProcedureChain` (`ProcedureAnalysisResult`
in `lib/types`). -/
structure ProcedureAnalysisResult where
  type : String
  inputSchema : Option String
  outputSchema : Option String
deriving DecidableEq, Repr

/-- The type of the `resolveSchemaText` callback threaded into the
procedure analyzer (text, source file, imports, file path). -/
def SchemaTextResolver : Type :=
  String → SrcFile → List (String × ImportInfo) → String → String

/-- Models `analyzeProcedureChain`: recognise a call whose callee is a
property access named `query` / `mutation` / `subscription`; read
explicit `.input(...)` / `.output(...)` texts from the chain and pass
them through the schema text resolver; when no output text survives,
infer one from the resolver function; finally let the procedure-type
schemas override whichever side had no explicit text, provided they
are informative. -/
def analyzeProcedureChain (o : Oracle) (node : Expr) (sf : SrcFile)
    (imports : List (String × ImportInfo)) (filePath : String)
    (resolveSchemaTextCb : SchemaTextResolver) :
    Option ProcedureAnalysisResult :=
  match node with
  | .call callee _ =>
    match callee with
    | .propAccess receiver method =>
      if method = "query" ∨ method = "mutation" ∨ method = "subscription" then
        let inputSchema0 := findMethodInChain receiver "input"
        let outputSchema0 := findMethodInChain receiver "output"
        let hasExplicitInput := truthy inputSchema0
        let hasExplicitOutput := truthy outputSchema0
        let inputSchema1 :=
          if truthy inputSchema0 then
            inputSchema0.map (fun s => resolveSchemaTextCb s sf imports filePath)
          else inputSchema0
        let outputSchema1 :=
          if truthy outputSchema0 then
            outputSchema0.map (fun s => resolveSchemaTextCb s sf imports filePath)
          else outputSchema0
        let outputSchema2 :=
          if ¬ truthy outputSchema1 then
            inferOutputSchemaFromResolver o node filePath inputSchema1
          else outputSchema1
        let procedureTypeSchemas := inferSchemasFromProcedureType o node filePath
        let ptsInput := procedureTypeSchemas.bind (fun p => p.inputSchema)
        let inputSchema2 :=
          if ¬ hasExplicitInput ∧ truthy ptsInput ∧
             ¬ isNonInformativeInferredType (ptsInput.getD "") then ptsInput
          else inputSchema1
        let ptsOutput := procedureTypeSchemas.bind (fun p => p.outputSchema)
        let outputSchema3 :=
          if ¬ hasExplicitOutput ∧ truthy ptsOutput ∧
             ¬ isNonInformativeInferredType (ptsOutput.getD "") then ptsOutput
          else outputSchema2
        some { type := method, inputSchema := inputSchema2,
               outputSchema := outputSchema3 }
      else none
    | _ => none
  | _ => none

end Trpc

namespace Trpc

/-- A node of the discovered procedure tree (`TrpcNode` in
`lib/types`): name, node type (`router` or a procedure kind), children,
optional source location and schema texts. -/
inductive TrpcNode where
  | mk (name : String) (type : String) (children : List TrpcNode)
      (filePath : Option String) (line : Option Nat)
      (inputSchema : Option String) (outputSchema : Option String)

/-- The node's display name. -/
def TrpcNode.name : TrpcNode → String
  | .mk n _ _ _ _ _ _ => n

/-- The node's kind (`router`, `query`, `mutation`, `subscription`). -/
def TrpcNode.type : TrpcNode → String
  | .mk _ t _ _ _ _ _ => t

/-- The node's children. -/
def TrpcNode.children : TrpcNode → List TrpcNode
  | .mk _ _ cs _ _ _ _ => cs

/-- The node's source file. -/
def TrpcNode.filePath : TrpcNode → Option String
  | .mk _ _ _ fp _ _ _ => fp

/-- The node's 1-based source line. -/
def TrpcNode.line : TrpcNode → Option Nat
  | .mk _ _ _ _ l _ _ => l

/-- The node's input schema text. -/
def TrpcNode.inputSchema : TrpcNode → Option String
  | .mk _ _ _ _ _ i _ => i

/-- The node's output schema text. -/
def TrpcNode.outputSchema : TrpcNode → Option String
  | .mk _ _ _ _ _ _ o => o

/-- Rename a node in place; models the `child.name = key` assignments
of `parseRouterObject`. -/
def TrpcNode.withName : TrpcNode → String → TrpcNode
  | .mk _ t cs fp l i o, newName => .mk newName t cs fp l i o

/-- A procedure found by resolving an identifier
(`ProcedureResolution` in `lib/types`). -/
structure ProcedureResolution where
  type : String
  inputSchema : Option String
  outputSchema : Option String
  filePath : String
  line : Nat
deriving DecidableEq, Repr

/-- The full static context of one analysis: the filesystem
environment plus the type-checker oracle. -/
structure Ctx where
  env : Env
  oracle : Oracle

/-- The `resolveSchemaText` callback the router parser passes to the
procedure analyzer (depth starts at 0). -/
def Ctx.schemaResolver (ctx : Ctx) : SchemaTextResolver :=
  fun text sf imports fp => resolveSchemaText ctx.env text sf imports fp 0

/-- Models `resolveIdentifierAsProcedure`: try the identifier as a
local declaration whose initializer is a procedure chain; else follow
its import binding into the resolved file and analyze the
corresponding declaration there. -/
def resolveIdentifierAsProcedure (ctx : Ctx)
    (varName currentFilePath : String) (currentSourceFile : SrcFile)
    (currentImports : List (String × ImportInfo)) :
    Option ProcedureResolution :=
  let fromLocal : Option ProcedureResolution :=
    match findVariableDeclarationInfo currentSourceFile varName with
    | none => none
    | some localDecl =>
      match analyzeProcedureChain ctx.oracle localDecl.init currentSourceFile
          currentImports currentFilePath ctx.schemaResolver with
      | none => none
      | some localProc =>
        some { type := localProc.type, inputSchema := localProc.inputSchema,
               outputSchema := localProc.outputSchema,
               filePath := currentFilePath, line := localDecl.line }
  match fromLocal with
  | some r => some r
  | none =>
    match currentImports.lookup varName with
    | none => none
    | some importInfo =>
      match resolveImport ctx.env importInfo.moduleSpecifier currentFilePath with
      | none => none
      | some resolvedPath =>
        match ctx.env.sourceFile resolvedPath with
        | none => none
        | some importSf =>
          let importImports := getImports importSf
          let targetVar := if importInfo.isDefault then varName
                           else importInfo.importName
          match findVariableDeclarationInfo importSf targetVar with
          | none => none
          | some importedDecl =>
            match analyzeProcedureChain ctx.oracle importedDecl.init importSf
                importImports resolvedPath ctx.schemaResolver with
            | none => none
            | some importedProc =>
              some { type := importedProc.type,
                     inputSchema := importedProc.inputSchema,
                     outputSchema := importedProc.outputSchema,
                     filePath := resolvedPath, line := importedDecl.line }

/-- The guard of the `visit` fold in `parseRouterFromFile`: a
declaration of the requested variable name whose initializer is a
recognised collection-factory call with an object-literal first
argument yields that literal's members (`init.arguments[0]`). -/
def declRouterProps (d : VarDeclInfo) (routerVarName : String) :
    Option (List ObjProp) :=
  if d.name = routerVarName then
    match d.init with
    | .call c args =>
      if isRouterCall c then
        match args.head? with
        | some (.objectLit props) => some props
        | _ => none
      else none
    | _ => none
  else none

mutual

/-- Models `parseRouterFromFile`.  The visited set is threaded
explicitly (the source mutates one shared `Set`); its keys are
`filePath ++ ":" ++ routerVarName`.  An already-visited key or a
missing file yields no node; otherwise the key is marked and every
declaration of the variable whose initializer is a collection-factory
call with an object-literal first argument contributes children to the
returned collection node.  The cache clearing the source performs at
`visited.size === 0` has no bearing on the returned tree over this
immutable environment; the cache state itself is modelled by
`buildEntryCaches`.  `fuel` is burnt one unit per nested call; the
source needs none because the growing visited set bounds its
recursion. -/
def parseRouterFromFile (ctx : Ctx) :
    Nat → String → String → List String → Option TrpcNode × List String
  | 0, _, _, visited => (none, visited)
  | fuel + 1, filePath, routerVarName, visited =>
    let key := filePath ++ ":" ++ routerVarName
    if visited.contains key then (none, visited)
    else
      match ctx.env.sourceFile filePath with
      | none => (none, visited)
      | some sf =>
        let visited1 := key :: visited
        let imports := getImports sf
        let (children, visited2) := parseRouterDecls ctx fuel
          (stmtListVarDecls sf.statements) routerVarName filePath imports
          visited1 sf
        (some (TrpcNode.mk routerVarName "router" children (some filePath)
          none none none), visited2)

/-- The `visit` fold of `parseRouterFromFile` over the file's variable
declarations (the source visit does not stop at the first match). -/
def parseRouterDecls (ctx : Ctx) :
    Nat → List VarDeclInfo → String → String → List (String × ImportInfo) →
    List String → SrcFile → List TrpcNode × List String
  | 0, _, _, _, _, visited, _ => ([], visited)
  | _ + 1, [], _, _, _, visited, _ => ([], visited)
  | fuel + 1, d :: ds, routerVarName, filePath, imports, visited, sf =>
    let (nodes1, visited1) :=
      match declRouterProps d routerVarName with
      | some props =>
        parseRouterObject ctx fuel props filePath imports visited sf
      | none => ([], visited)
    let (nodes2, visited2) := parseRouterDecls ctx fuel ds routerVarName
      filePath imports visited1 sf
    (nodes1 ++ nodes2, visited2)

/-- Models `parseRouterObject`: children produced for the members of a
collection-factory call's object literal, in source order. -/
def parseRouterObject (ctx : Ctx) :
    Nat → List ObjProp → String → List (String × ImportInfo) →
    List String → SrcFile → List TrpcNode × List String
  | 0, _, _, _, visited, _ => ([], visited)
  | _ + 1, [], _, _, visited, _ => ([], visited)
  | fuel + 1, prop :: props, filePath, imports, visited, sf =>
    let (nodes1, visited1) := parseRouterProp ctx fuel prop filePath imports
      visited sf
    let (nodes2, visited2) := parseRouterObject ctx fuel props filePath imports
      visited1 sf
    (nodes1 ++ nodes2, visited2)

/-- One loop iteration of `parseRouterObject`: a property assignment
is tried as an inline procedure chain, then (for identifier values) as
a procedure reference, then as a collection reference, then as an
inline collection-factory call, and otherwise becomes an empty
placeholder collection node.  A shorthand property is resolved as a
collection reference and dropped when that fails; spreads and methods
produce nothing. -/
def parseRouterProp (ctx : Ctx) :
    Nat → ObjProp → String → List (String × ImportInfo) →
    List String → SrcFile → List TrpcNode × List String
  | 0, _, _, _, visited, _ => ([], visited)
  | fuel + 1, .propAssign pname value line, filePath, imports, visited, sf =>
    let key := propNameText pname
    match analyzeProcedureChain ctx.oracle value sf imports filePath
        ctx.schemaResolver with
    | some procInfo =>
      ([TrpcNode.mk key procInfo.type [] (some filePath) (some line)
        procInfo.inputSchema procInfo.outputSchema], visited)
    | none =>
      match value with
      | .ident valueName =>
        match resolveIdentifierAsProcedure ctx valueName filePath sf imports with
        | some proc =>
          ([TrpcNode.mk key proc.type [] (some proc.filePath) (some proc.line)
            proc.inputSchema proc.outputSchema], visited)
        | none =>
          match resolveIdentifierAsRouter ctx fuel valueName filePath imports
              visited with
          | (some child, visited1) => ([child.withName key], visited1)
          | (none, visited1) =>
            ([TrpcNode.mk key "router" [] (some filePath) (some line) none
              none], visited1)
      | .call c args =>
        if isRouterCall c then
          let (childChildren, visited1) :=
            match args.head? with
            | some (.objectLit innerProps) =>
              parseRouterObject ctx fuel innerProps filePath imports visited sf
            | _ => ([], visited)
          ([TrpcNode.mk key "router" childChildren (some filePath) (some line)
            none none], visited1)
        else
          ([TrpcNode.mk key "router" [] (some filePath) (some line) none none],
           visited)
      | _ =>
        ([TrpcNode.mk key "router" [] (some filePath) (some line) none none],
         visited)
  | fuel + 1, .shorthand name _, filePath, imports, visited, _ =>
    match resolveIdentifierAsRouter ctx fuel name filePath imports visited with
    | (some child, visited1) => ([child.withName name], visited1)
    | (none, visited1) => ([], visited1)
  | _ + 1, .spreadAssign _, _, _, visited, _ => ([], visited)
  | _ + 1, .methodDecl _ _, _, _, visited, _ => ([], visited)

/-- Models `resolveIdentifierAsRouter`: follow the name's import
binding when it resolves, else fall back to parsing the current file
for a same-named collection variable. -/
def resolveIdentifierAsRouter (ctx : Ctx) :
    Nat → String → String → List (String × ImportInfo) → List String →
    Option TrpcNode × List String
  | 0, _, _, _, visited => (none, visited)
  | fuel + 1, varName, currentFilePath, imports, visited =>
    match imports.lookup varName with
    | some importInfo =>
      match resolveImport ctx.env importInfo.moduleSpecifier
          currentFilePath with
      | some resolved =>
        let targetVar := if importInfo.isDefault then varName
                         else importInfo.importName
        parseRouterFromFile ctx fuel resolved targetVar visited
      | none => parseRouterFromFile ctx fuel currentFilePath varName visited
    | none => parseRouterFromFile ctx fuel currentFilePath varName visited

end

/-- The four process-wide caches of the two parser modules, by name.
The values record what the source caches: resolved enum texts, nearest
`tsconfig.json` locations, constructed type-checker contexts (their
presence), and parsed path-mapping tables. -/
structure AnalysisCaches where
  enumResolutionCache : List (String × Option String)
  nearestTsConfigPathCache : List (String × Option String)
  typeCheckerContextCache : List (String × Option Unit)
  tsConfigPathsCache : List (String × Option TsConfigPaths)
deriving DecidableEq, Repr

/-- Models `clearProcedureAnalysisCaches`: empty the three caches of
the procedure-analysis module.  `tsConfigPathsCache` lives in the
router parser module and is not touched by any clearing code in the
repository. -/
def clearProcedureAnalysisCaches (c : AnalysisCaches) : AnalysisCaches :=
  { c with enumResolutionCache := [], nearestTsConfigPathCache := [],
           typeCheckerContextCache := [] }

/-- Models the entry step of `parseRouterFromFile`:
`if (visited.size === 0) clearProcedureAnalysisCaches();` — the clear
runs exactly at top-level (empty visited set) invocations, before any
other work. -/
def buildEntryCaches (visitedSize : Nat) (c : AnalysisCaches) :
    AnalysisCaches :=
  if visitedSize = 0 then clearProcedureAnalysisCaches c else c

end Trpc

namespace Trpc

/-- A trivial oracle: the type checker yields nothing (models analysis
without any reachable `tsconfig.json`). -/
def o0 : Oracle := ⟨fun _ _ => none, fun _ _ => none, id⟩

/-- An empty parsed source file. -/
def sfEmpty : SrcFile := ⟨[]⟩

/-- File A of the mutual-reference scenario:
`import { b } from "./B"; const a = router({ b });`. -/
def sfA : SrcFile := ⟨[.importDecl "./B" none [("b", "b")],
  .varDecl "a" (some (.call (.ident "router") [.objectLit [.shorthand "b" 2]])) 2]⟩

/-- File B of the mutual-reference scenario:
`import { a } from "./A"; const b = router({ a });`. -/
def sfB : SrcFile := ⟨[.importDecl "./A" none [("a", "a")],
  .varDecl "b" (some (.call (.ident "router") [.objectLit [.shorthand "a" 2]])) 2]⟩

/-- Two collections referencing each other across two files. -/
def envAB : Env := ⟨[("/p/A.ts", sfA), ("/p/B.ts", sfB)], []⟩

/-- Analysis context for the mutual-reference scenario. -/
def ctxAB : Ctx := ⟨envAB, o0⟩

/-- The tree the mutual-reference build returns: the root collection
`a` with the single child collection `b`, whose own back-reference to
`a` (the cycle's back-edge) is omitted. -/
def treeAB : TrpcNode := TrpcNode.mk "a" "router"
  [TrpcNode.mk "b" "router" [] (some "/p/B.ts") none none none]
  (some "/p/A.ts") none none none

/-- A self-referential alias chain of length 6 that never reaches a
literal base case: `const a1 = a2; ...; const a6 = a1;`. -/
def sfC3 : SrcFile := ⟨[
  .varDecl "a1" (some (.ident "a2")) 1, .varDecl "a2" (some (.ident "a3")) 2,
  .varDecl "a3" (some (.ident "a4")) 3, .varDecl "a4" (some (.ident "a5")) 4,
  .varDecl "a5" (some (.ident "a6")) 5, .varDecl "a6" (some (.ident "a1")) 6]⟩

/-- Environment holding the alias-chain file. -/
def envC3 : Env := ⟨[("/f.ts", sfC3)], []⟩

/-- An oracle whose whole-call type text carries an informative
`output` field in its generic argument. -/
def oC1 : Oracle :=
  ⟨fun _ _ => some "QueryProcedure<\x7b output: number; \x7d>",
   fun _ _ => none, id⟩

/-- `publicProcedure.query(() => "hi")`: no explicit schemas, a
resolver whose return expression structurally infers `string`. -/
def exprC1 : Expr :=
  .call (.propAccess (.ident "publicProcedure") "query")
    [.arrow (.exprBody (.strLit "hi"))]

/-- The identity schema-text callback (used where resolution plays no
role). -/
def cbId : SchemaTextResolver := fun s _ _ _ => s

/-- Path-mapping table declaring `@a/*` before the longer-prefixed
`@a/b/*`, with both substitution targets existing on disk. -/
def envC4 : Env := ⟨[("/root/p1/b/x.ts", sfEmpty), ("/root/p2/x.ts", sfEmpty),
    ("/root/src/main.ts", sfEmpty)],
  [("/root", some ⟨[("@a/*", ["p1/*"]), ("@a/b/*", ["p2/*"])], none⟩)]⟩

/-- The `{"@app/*": ["./src/*"]}` mapping of the resolution scenario,
over an arbitrary file table. -/
def envC5 (files : List (String × SrcFile)) : Env :=
  ⟨files, [("/root", some ⟨[("@app/*", ["./src/*"])], none⟩)]⟩

/-- Filesystem where `db.tsx` exists but `db.ts` does not, alongside
`db/index.ts`. -/
def envC5cx : Env := envC5 [("/root/src/db.tsx", sfEmpty),
  ("/root/src/db/index.ts", sfEmpty), ("/root/src/main.ts", sfEmpty)]

/-- `const r = router({ ...x });` — a collection whose only member is
a spread property. -/
def sfC7 : SrcFile := ⟨[.varDecl "r"
  (some (.call (.ident "router") [.objectLit [.spreadAssign (.ident "x")]])) 1]⟩

/-- Environment holding the spread-property collection. -/
def envC7 : Env := ⟨[("/s.ts", sfC7)], []⟩

/-- Analysis context for the spread-property collection. -/
def ctxC7 : Ctx := ⟨envC7, o0⟩

/-- A file whose only statement is `export type Foo = typeof bar;` —
an exported type alias with a `typeof` right-hand side, but not named
`AppRouter`. -/
def sfC8 : SrcFile := ⟨[.typeAliasDecl "Foo" true (.typeQuery "bar")]⟩

/-- Environment holding the exported-alias file. -/
def envC8 : Env := ⟨[("/r.ts", sfC8)], []⟩

/-- Modelled from the spec: `findRootAliasNames(file)` scans for an
exported type alias whose right-hand side is a `typeof <name>` query
and returns those names.  This definition follows the spec's words (it
honours the export modifier and ignores the alias's own name), for
comparison with the source-derived `findAppRoutersInFile`. -/
def specRootAliasNames (sf : SrcFile) : List String :=
  (stmtListTypeAliases sf.statements).filterMap (fun t =>
    if t.2.1 = true then
      match t.2.2 with
      | .typeQuery n => some n
      | .otherTy _ => none
    else none)

/-- A cache state whose path-mapping cache holds a stale entry. -/
def cachesC9 : AnalysisCaches :=
  ⟨[("Role", some "\"ADMIN\" | \"USER\"")],
   [("/w/src", some "/w/tsconfig.json")],
   [("/w/tsconfig.json", some ())],
   [("/w", none)]⟩

end Trpc

namespace Trpc

theorem mem_dedupKeepFirstGo (x : String) : ∀ (xs seen : List String),
    x ∈ dedupKeepFirstGo seen xs ↔ x ∈ xs ∧ x ∉ seen := by
  intro xs
  induction xs with
  | nil =>
    intro seen
    simp [dedupKeepFirstGo]
  | cons y ys ih =>
    intro seen
    by_cases hy : y ∈ seen
    · rw [dedupKeepFirstGo, if_pos (List.elem_eq_true_of_mem hy), ih]
      constructor
      · rintro ⟨h1, h2⟩
        exact ⟨List.mem_cons.mpr (Or.inr h1), h2⟩
      · rintro ⟨h1, h2⟩
        rcases List.mem_cons.mp h1 with h1 | h1
        · exact absurd (h1 ▸ hy) h2
        · exact ⟨h1, h2⟩
    · rw [dedupKeepFirstGo, if_neg (by simpa [List.contains] using hy)]
      constructor
      · intro hmem
        rcases List.mem_cons.mp hmem with rfl | hmem
        · exact ⟨List.mem_cons_self _ _, hy⟩
        · rw [ih] at hmem
          refine ⟨List.mem_cons.mpr (Or.inr hmem.1), fun hx => ?_⟩
          exact hmem.2 (List.mem_cons.mpr (Or.inr hx))
      · rintro ⟨h1, h2⟩
        by_cases hxy : x = y
        · exact hxy ▸ List.mem_cons_self _ _
        · rcases List.mem_cons.mp h1 with rfl | h1
          · exact absurd rfl hxy
          · refine List.mem_cons.mpr (Or.inr ?_)
            rw [ih]
            refine ⟨h1, fun hx => ?_⟩
            rcases List.mem_cons.mp hx with rfl | hx
            · exact hxy rfl
            · exact h2 hx

theorem nodup_dedupKeepFirstGo : ∀ (xs seen : List String),
    (dedupKeepFirstGo seen xs).Nodup := by
  intro xs
  induction xs with
  | nil =>
    intro seen
    simp [dedupKeepFirstGo]
  | cons y ys ih =>
    intro seen
    rw [dedupKeepFirstGo]
    split
    · exact ih seen
    · refine List.nodup_cons.mpr ⟨fun hmem => ?_, ih (y :: seen)⟩
      rw [mem_dedupKeepFirstGo] at hmem
      exact hmem.2 (List.mem_cons_self _ _)

theorem mem_dedupKeepFirst (x : String) (xs : List String) :
    x ∈ dedupKeepFirst xs ↔ x ∈ xs := by
  rw [dedupKeepFirst, mem_dedupKeepFirstGo]
  simp

theorem nodup_dedupKeepFirst (xs : List String) :
    (dedupKeepFirst xs).Nodup :=
  nodup_dedupKeepFirstGo xs []

theorem parseRouterFromFile_visited (ctx : Ctx) (fuel : Nat)
    (filePath varName : String) (visited : List String)
    (h : (filePath ++ ":" ++ varName) ∈ visited) :
    parseRouterFromFile ctx fuel filePath varName visited = (none, visited) := by
  cases fuel with
  | zero => rfl
  | succ n =>
    rw [parseRouterFromFile]
    simp only [List.elem_eq_true_of_mem h, List.contains, if_true]

theorem parseRouterObject_nil (ctx : Ctx) (fuel : Nat) (fp : String)
    (imports : List (String × ImportInfo)) (visited : List String)
    (sf : SrcFile) :
    parseRouterObject ctx fuel [] fp imports visited sf = ([], visited) := by
  cases fuel <;> rfl

theorem parseRouterDecls_nil (ctx : Ctx) (fuel : Nat) (rv fp : String)
    (imports : List (String × ImportInfo)) (visited : List String)
    (sf : SrcFile) :
    parseRouterDecls ctx fuel [] rv fp imports visited sf = ([], visited) := by
  cases fuel <;> rfl

/-- A pair-shaped result whose second component is the threaded visited
set preserves subsets of that component. -/
theorem pairSnd_subset {visited : List String} (q : List TrpcNode × List String)
    (f : List TrpcNode → List TrpcNode) (h : visited ⊆ q.2) :
    visited ⊆ (match q with | (cs, v1) => (f cs, v1)).2 := by
  rcases q with ⟨cs, v1⟩
  exact h

/-- The visited set only grows: every function of the router tree
builder's mutual recursion returns a visited set that contains the one
it was given, at every fuel. -/
theorem visitedMono : ∀ (fuel : Nat),
    (∀ (ctx : Ctx) (f v : String) (visited : List String),
      visited ⊆ (parseRouterFromFile ctx fuel f v visited).2) ∧
    (∀ (ctx : Ctx) (ds : List VarDeclInfo) (rv fp : String)
      (imports : List (String × ImportInfo)) (visited : List String) (sf : SrcFile),
      visited ⊆ (parseRouterDecls ctx fuel ds rv fp imports visited sf).2) ∧
    (∀ (ctx : Ctx) (props : List ObjProp) (fp : String)
      (imports : List (String × ImportInfo)) (visited : List String) (sf : SrcFile),
      visited ⊆ (parseRouterObject ctx fuel props fp imports visited sf).2) ∧
    (∀ (ctx : Ctx) (prop : ObjProp) (fp : String)
      (imports : List (String × ImportInfo)) (visited : List String) (sf : SrcFile),
      visited ⊆ (parseRouterProp ctx fuel prop fp imports visited sf).2) ∧
    (∀ (ctx : Ctx) (vn cfp : String)
      (imports : List (String × ImportInfo)) (visited : List String),
      visited ⊆ (resolveIdentifierAsRouter ctx fuel vn cfp imports visited).2) := by
  intro fuel
  induction fuel with
  | zero =>
    refine ⟨?_, ?_, ?_, ?_, ?_⟩ <;> intros <;>
      simp [parseRouterFromFile, parseRouterDecls, parseRouterObject,
        parseRouterProp, resolveIdentifierAsRouter]
  | succ n ih =>
    obtain ⟨ihP, ihD, ihO, ihR, ihI⟩ := ih
    refine ⟨?_, ?_, ?_, ?_, ?_⟩
    · intro ctx f v visited
      rw [parseRouterFromFile]
      split
      · simp
      · split
        · simp
        · exact List.Subset.trans (List.subset_cons_of_subset _ (List.Subset.refl _))
            (ihD _ _ _ _ _ _ _)
    · intro ctx ds rv fp imports visited sf
      cases ds with
      | nil => simp [parseRouterDecls]
      | cons d ds =>
        rw [parseRouterDecls]
        have key : ∀ (p : List TrpcNode × List String), visited ⊆ p.2 →
            visited ⊆ (match p with
              | (nodes1, visited1) =>
                match parseRouterDecls ctx n ds rv fp imports visited1 sf with
                | (nodes2, visited2) => (nodes1 ++ nodes2, visited2)).2 := by
          rintro ⟨nodes1, visited1⟩ hp
          have h2 := ihD ctx ds rv fp imports visited1 sf
          rcases hq : parseRouterDecls ctx n ds rv fp imports visited1 sf with ⟨nodes2, visited2⟩
          rw [hq] at h2
          dsimp only
          rw [hq]
          exact hp.trans h2
        apply key
        cases declRouterProps d rv with
        | none => exact List.Subset.refl _
        | some props => exact ihO _ _ _ _ _ _
    · intro ctx props fp imports visited sf
      cases props with
      | nil => simp [parseRouterObject]
      | cons p ps =>
        rw [parseRouterObject]
        have key : ∀ (q : List TrpcNode × List String), visited ⊆ q.2 →
            visited ⊆ (match q with
              | (nodes1, visited1) =>
                match parseRouterObject ctx n ps fp imports visited1 sf with
                | (nodes2, visited2) => (nodes1 ++ nodes2, visited2)).2 := by
          rintro ⟨nodes1, visited1⟩ hp
          have h2 := ihO ctx ps fp imports visited1 sf
          rcases hq : parseRouterObject ctx n ps fp imports visited1 sf with ⟨nodes2, visited2⟩
          rw [hq] at h2
          dsimp only
          rw [hq]
          exact hp.trans h2
        apply key
        exact ihR _ _ _ _ _ _
    · intro ctx prop fp imports visited sf
      cases prop with
      | propAssign pname value line =>
        cases value
        case ident valueName =>
          rw [parseRouterProp]
          repeat' split
          all_goals try exact List.Subset.refl _
          all_goals
            rename_i heq
            have h2 := ihI ctx valueName fp imports visited
            rw [heq] at h2
            exact h2
        case call c args =>
          rw [parseRouterProp]
          split
          · exact List.Subset.refl _
          · split
            · refine pairSnd_subset _
                (fun cs => [TrpcNode.mk (propNameText pname) "router" cs
                  (some fp) (some line) none none]) ?_
              split
              · exact ihO _ _ _ _ _ _
              · exact List.Subset.refl _
            · exact List.Subset.refl _
        all_goals
          rw [parseRouterProp]
          repeat' split
          all_goals first
            | exact List.Subset.refl _
            | (intros
               rename_i hfalse
               simp at hfalse)
      | shorthand name line =>
        rw [parseRouterProp]
        repeat' split
        all_goals
          rename_i heq
          have h2 := ihI ctx name fp imports visited
          rw [heq] at h2
          exact h2
      | spreadAssign e =>
        rw [parseRouterProp]
        exact List.Subset.refl _
      | methodDecl pname line =>
        rw [parseRouterProp]
        exact List.Subset.refl _
    · intro ctx vn cfp imports visited
      rw [resolveIdentifierAsRouter]
      repeat' split
      all_goals exact ihP _ _ _ _

/-- A top-level expansion marks its key: when the file exists and the
key is not yet visited, the key is in the returned visited set (the
source adds it to the shared set before parsing, and the set only
grows). -/
theorem parseRouterFromFile_marks (ctx : Ctx) (fuel : Nat)
    (filePath varName : String) (visited : List String) (sf : SrcFile)
    (hf : ctx.env.sourceFile filePath = some sf)
    (hk : (filePath ++ ":" ++ varName) ∉ visited) :
    (filePath ++ ":" ++ varName) ∈
      (parseRouterFromFile ctx (fuel + 1) filePath varName visited).2 := by
  have hc : visited.contains (filePath ++ ":" ++ varName) = false := by
    simp [List.contains, hk]
  rw [parseRouterFromFile, hc]
  simp only [Bool.false_eq_true, if_false, hf]
  rcases hq : parseRouterDecls ctx fuel (stmtListVarDecls sf.statements)
      varName filePath (getImports sf)
      ((filePath ++ ":" ++ varName) :: visited) sf with ⟨cs, v2⟩
  have hsub := (visitedMono fuel).2.1 ctx (stmtListVarDecls sf.statements)
    varName filePath (getImports sf)
    ((filePath ++ ":" ++ varName) :: visited) sf
  rw [hq] at hsub
  exact hsub (List.mem_cons_self _ _)

/-- The visited set after the mutual-reference build: both keys, most
recent first. -/
def visAB : List String := ["/p/B.ts:b", "/p/A.ts:a"]

/-- Resolving `a` from file B hits the visited guard: no node, set unchanged. -/
theorem cycle_riar_a : ∀ (fuel : Nat),
    resolveIdentifierAsRouter ctxAB fuel "a" "/p/B.ts" (getImports sfB) visAB =
      (none, visAB) := by
  intro fuel
  cases fuel with
  | zero => rfl
  | succ n =>
    show parseRouterFromFile ctxAB n "/p/A.ts" "a" visAB = (none, visAB)
    exact parseRouterFromFile_visited _ _ _ _ _ (by simp [visAB])

/-- The shorthand back-reference `a` in file B is dropped: no child node. -/
theorem cycle_prop_a : ∀ (fuel : Nat),
    parseRouterProp ctxAB fuel (.shorthand "a" 2) "/p/B.ts" (getImports sfB)
      visAB sfB = ([], visAB) := by
  intro fuel
  cases fuel with
  | zero => rfl
  | succ n =>
    rw [parseRouterProp, cycle_riar_a n]

/-- File B's object literal contributes no children (its only member is the cycle back-edge). -/
theorem cycle_obj_a : ∀ (fuel : Nat),
    parseRouterObject ctxAB fuel [.shorthand "a" 2] "/p/B.ts" (getImports sfB)
      visAB sfB = ([], visAB) := by
  intro fuel
  cases fuel with
  | zero => rfl
  | succ n =>
    rw [parseRouterObject, cycle_prop_a n]
    dsimp only
    rw [parseRouterObject_nil]
    rfl

/-- File B's declaration fold yields no children. -/
theorem cycle_decls_b : ∀ (fuel : Nat),
    parseRouterDecls ctxAB fuel (stmtListVarDecls sfB.statements) "b" "/p/B.ts"
      (getImports sfB) visAB sfB = ([], visAB) := by
  intro fuel
  cases fuel with
  | zero => rfl
  | succ n =>
    show parseRouterDecls ctxAB (n + 1)
      [⟨"b", .call (.ident "router") [.objectLit [.shorthand "a" 2]], 2⟩] "b"
      "/p/B.ts" (getImports sfB) visAB sfB = ([], visAB)
    rw [parseRouterDecls]
    rw [show declRouterProps
        ⟨"b", Expr.call (Expr.ident "router") [Expr.objectLit [ObjProp.shorthand "a" 2]], 2⟩
        "b" = some [ObjProp.shorthand "a" 2] from rfl]
    dsimp only
    rw [cycle_obj_a n]
    dsimp only
    rw [parseRouterDecls_nil]
    rfl

/-- Parsing collection `b` of file B returns a childless collection node and marks its key. -/
theorem cycle_parse_b : ∀ (fuel : Nat),
    parseRouterFromFile ctxAB (fuel + 1) "/p/B.ts" "b" ["/p/A.ts:a"] =
      (some (TrpcNode.mk "b" "router" [] (some "/p/B.ts") none none none),
       visAB) := by
  intro fuel
  rw [parseRouterFromFile]
  rw [show (["/p/A.ts:a"].contains ("/p/B.ts" ++ ":" ++ "b")) = false from rfl]
  simp only [Bool.false_eq_true, if_false]
  rw [show ctxAB.env.sourceFile "/p/B.ts" = some sfB from rfl]
  dsimp only
  rw [show ("/p/B.ts" ++ ":" ++ "b") :: ["/p/A.ts:a"] = visAB from rfl]
  rw [cycle_decls_b fuel]

/-- The child node the mutual-reference build produces for `b`. -/
def nodeB : TrpcNode :=
  TrpcNode.mk "b" "router" [] (some "/p/B.ts") none none none

/-- Resolving `b` from file A follows the import into file B. -/
theorem cycle_riar_b : ∀ (fuel : Nat),
    resolveIdentifierAsRouter ctxAB (fuel + 2) "b" "/p/A.ts" (getImports sfA)
      ["/p/A.ts:a"] = (some nodeB, visAB) := by
  intro fuel
  show parseRouterFromFile ctxAB (fuel + 1) "/p/B.ts" "b" ["/p/A.ts:a"] =
    (some nodeB, visAB)
  exact cycle_parse_b fuel

/-- The shorthand `b` in file A yields the node for collection `b`. -/
theorem cycle_prop_b : ∀ (fuel : Nat),
    parseRouterProp ctxAB (fuel + 3) (.shorthand "b" 2) "/p/A.ts"
      (getImports sfA) ["/p/A.ts:a"] sfA = ([nodeB], visAB) := by
  intro fuel
  show parseRouterProp ctxAB ((fuel + 2) + 1) (.shorthand "b" 2) "/p/A.ts"
    (getImports sfA) ["/p/A.ts:a"] sfA = ([nodeB], visAB)
  rw [parseRouterProp, cycle_riar_b fuel]
  rfl

/-- File A's object literal yields exactly the child `b`. -/
theorem cycle_obj_b : ∀ (fuel : Nat),
    parseRouterObject ctxAB (fuel + 4) [.shorthand "b" 2] "/p/A.ts"
      (getImports sfA) ["/p/A.ts:a"] sfA = ([nodeB], visAB) := by
  intro fuel
  show parseRouterObject ctxAB ((fuel + 3) + 1) [.shorthand "b" 2] "/p/A.ts"
    (getImports sfA) ["/p/A.ts:a"] sfA = ([nodeB], visAB)
  rw [parseRouterObject, cycle_prop_b fuel]
  dsimp only
  rw [parseRouterObject_nil]
  rfl

/-- File A's declaration fold yields exactly the child `b`. -/
theorem cycle_decls_a : ∀ (fuel : Nat),
    parseRouterDecls ctxAB (fuel + 5) (stmtListVarDecls sfA.statements) "a"
      "/p/A.ts" (getImports sfA) ["/p/A.ts:a"] sfA = ([nodeB], visAB) := by
  intro fuel
  show parseRouterDecls ctxAB ((fuel + 4) + 1)
    [⟨"a", Expr.call (Expr.ident "router") [Expr.objectLit [ObjProp.shorthand "b" 2]], 2⟩]
    "a" "/p/A.ts" (getImports sfA) ["/p/A.ts:a"] sfA = ([nodeB], visAB)
  rw [parseRouterDecls]
  rw [show declRouterProps
      ⟨"a", Expr.call (Expr.ident "router") [Expr.objectLit [ObjProp.shorthand "b" 2]], 2⟩
      "a" = some [ObjProp.shorthand "b" 2] from rfl]
  dsimp only
  rw [cycle_obj_b fuel]
  dsimp only
  rw [parseRouterDecls_nil]
  rfl

/-- The whole mutual-reference build, at every sufficient fuel, returns the tree omitting only the back-edge. -/
theorem cycle_parse_a : ∀ (fuel : Nat),
    parseRouterFromFile ctxAB (fuel + 6) "/p/A.ts" "a" [] =
      (some treeAB, visAB) := by
  intro fuel
  show parseRouterFromFile ctxAB ((fuel + 5) + 1) "/p/A.ts" "a" [] =
    (some treeAB, visAB)
  rw [parseRouterFromFile]
  rw [show (([] : List String).contains ("/p/A.ts" ++ ":" ++ "a")) = false from rfl]
  simp only [Bool.false_eq_true, if_false]
  rw [show ctxAB.env.sourceFile "/p/A.ts" = some sfA from rfl]
  dsimp only
  rw [show ("/p/A.ts" ++ ":" ++ "a") :: ([] : List String) = ["/p/A.ts:a"] from rfl]
  rw [cycle_decls_a fuel]
  rfl

/-- When no declaration in the list passes the collection-factory
guard, the declaration fold contributes nothing and leaves the visited
set unchanged. -/
theorem parseRouterDecls_no_match (ctx : Ctx) :
    ∀ (ds : List VarDeclInfo) (fuel : Nat) (rv fp : String)
      (imports : List (String × ImportInfo)) (visited : List String)
      (sf : SrcFile),
      (∀ d ∈ ds, declRouterProps d rv = none) →
      parseRouterDecls ctx fuel ds rv fp imports visited sf = ([], visited) := by
  intro ds
  induction ds with
  | nil =>
    intro fuel rv fp imports visited sf _
    exact parseRouterDecls_nil ctx fuel rv fp imports visited sf
  | cons d ds ih =>
    intro fuel rv fp imports visited sf h
    cases fuel with
    | zero => rfl
    | succ n =>
      rw [parseRouterDecls]
      rw [h d (List.mem_cons_self _ _)]
      dsimp only
      rw [ih n rv fp imports visited sf
        (fun d hd => h d (List.mem_cons.mpr (Or.inr hd)))]
      rfl

/-- Claim C10: whenever the target file exists and the
`(filePath, variableName)` pair is not already visited, the Router
Tree Builder returns a node (never `none`): a collection node named
after the variable; and when the file has no declaration of that name
whose initializer is a recognised collection-factory call with an
object-literal argument, that node has empty children — exactly like a
genuinely empty collection. -/
theorem C10_parse_always_node (ctx : Ctx) (fuel : Nat)
    (filePath varName : String) (visited : List String) (sf : SrcFile)
    (hf : ctx.env.sourceFile filePath = some sf)
    (hk : (filePath ++ ":" ++ varName) ∉ visited) :
    ∃ children visited2,
      parseRouterFromFile ctx (fuel + 1) filePath varName visited =
        (some (TrpcNode.mk varName "router" children (some filePath)
          none none none), visited2) ∧
      ((∀ d ∈ stmtListVarDecls sf.statements,
          declRouterProps d varName = none) → children = []) := by
  have hc : visited.contains (filePath ++ ":" ++ varName) = false := by
    simp [List.contains, hk]
  rw [parseRouterFromFile, hc]
  simp only [Bool.false_eq_true, if_false, hf]
  refine ⟨_, _, rfl, fun h => ?_⟩
  rw [parseRouterDecls_no_match ctx (stmtListVarDecls sf.statements) fuel
    varName filePath (getImports sf)
    ((filePath ++ ":" ++ varName) :: visited) sf h]

/-- Claim C10 witness: a file containing only an unrelated variable
still yields a collection node with empty children. -/
theorem C10_parse_always_node_witness :
    ∃ children visited2,
      parseRouterFromFile ctxC7 1 "/s.ts" "nosuch" [] =
        (some (TrpcNode.mk "nosuch" "router" children (some "/s.ts")
          none none none), visited2) ∧
      ((∀ d ∈ stmtListVarDecls sfC7.statements,
          declRouterProps d "nosuch" = none) → children = []) :=
  C10_parse_always_node ctxC7 0 "/s.ts" "nosuch" [] sfC7 rfl (by simp)

/-- Claim C2: cycle safety of the Router Tree Builder.  First, a
re-encountered `(filePath, variableName)` key returns no node and
leaves the visited set unchanged, at every fuel.  Second, a fresh
expansion of an existing file marks its key in the shared visited set
(so, with the first part, every pair is expanded at most once per
build).  Third, for the two mutually-referencing collections of
`envAB`, the build terminates at every sufficient recursion budget
with the same tree, which omits only the back-edge from `b` to `a`. -/
theorem C2_cycle_safety :
    (∀ (ctx : Ctx) (fuel : Nat) (filePath varName : String)
      (visited : List String),
      (filePath ++ ":" ++ varName) ∈ visited →
      parseRouterFromFile ctx fuel filePath varName visited =
        (none, visited)) ∧
    (∀ (ctx : Ctx) (fuel : Nat) (filePath varName : String)
      (visited : List String) (sf : SrcFile),
      ctx.env.sourceFile filePath = some sf →
      (filePath ++ ":" ++ varName) ∉ visited →
      (filePath ++ ":" ++ varName) ∈
        (parseRouterFromFile ctx (fuel + 1) filePath varName visited).2) ∧
    (∀ (fuel : Nat),
      parseRouterFromFile ctxAB (fuel + 6) "/p/A.ts" "a" [] =
        (some treeAB, visAB)) :=
  ⟨parseRouterFromFile_visited,
   fun ctx fuel f v vis sf hf hk =>
     parseRouterFromFile_marks ctx fuel f v vis sf hf hk,
   cycle_parse_a⟩

/-- Claim C2 witness: the three parts at concrete inputs — the guard
on an already-visited key, the marking of a fresh key, and the
mutual-reference build at fuel 6. -/
theorem C2_cycle_safety_witness :
    parseRouterFromFile ctxAB 3 "/p/A.ts" "a" ["/p/A.ts:a"] =
      (none, ["/p/A.ts:a"]) ∧
    ("/p/B.ts" ++ ":" ++ "b") ∈
      (parseRouterFromFile ctxAB 1 "/p/B.ts" "b" []).2 ∧
    parseRouterFromFile ctxAB 6 "/p/A.ts" "a" [] = (some treeAB, visAB) :=
  ⟨C2_cycle_safety.1 ctxAB 3 "/p/A.ts" "a" ["/p/A.ts:a"] (by decide),
   C2_cycle_safety.2.1 ctxAB 0 "/p/B.ts" "b" [] sfB rfl (by decide),
   C2_cycle_safety.2.2 0⟩

/-- Claim C3: bounded alias resolution.  Any call at depth greater
than 5 returns the text as accumulated, unchanged; and on the concrete
self-referential alias chain of length 6 (`a1 = a2; ...; a6 = a1`),
which never reaches a literal base case, the resolver terminates and
returns the accumulated text `a1`. -/
theorem C3_schema_text_depth_cap :
    (∀ (env : Env) (text : String) (sf : SrcFile)
      (imports : List (String × ImportInfo)) (fp : String) (depth : Nat),
      depth > 5 → resolveSchemaText env text sf imports fp depth = text) ∧
    resolveSchemaText envC3 "a1" sfC3 (getImports sfC3) "/f.ts" 0 = "a1" := by
  constructor
  · intro env text sf imports fp depth h
    rw [resolveSchemaText]
    rw [show 6 - depth = 0 from by omega]
    rfl
  · rfl

/-- Claim C3 witness: the depth guard at the concrete depth 6. -/
theorem C3_schema_text_depth_cap_witness :
    resolveSchemaText envC3 "z.string().optional()" sfC3 [] "/f.ts" 6 =
      "z.string().optional()" :=
  C3_schema_text_depth_cap.1 envC3 "z.string().optional()" sfC3 [] "/f.ts" 6
    (by decide)

/-- Claim C8 counterexample: a file whose only statement is the
exported alias `export type Foo = typeof bar;` — the probe returns the
empty list, while the claim (any exported alias with a `typeof`
right-hand side) demands `["bar"]`, as the spec-worded
`specRootAliasNames` shows. -/
theorem C8_counterexample :
    findAppRoutersInFile envC8 "/r.ts" = [] ∧
    specRootAliasNames sfC8 = ["bar"] ∧
    envC8.sourceFile "/r.ts" = some sfC8 :=
  ⟨rfl, rfl, rfl⟩

/-- Claim C8 (amended): the probe returns exactly the deduplicated
list of names `n` such that the file contains a type alias declaration
named `AppRouter` — exported or not — whose right-hand side is a
`typeof n` type query; the list is duplicate-free, and a missing file
yields the empty list. -/
theorem C8_probe_characterization :
    ∀ (env : Env) (filePath : String) (n : String),
      (n ∈ findAppRoutersInFile env filePath ↔
        ∃ sf ex, env.sourceFile filePath = some sf ∧
          ("AppRouter", ex, TypeAnn.typeQuery n) ∈
            stmtListTypeAliases sf.statements) ∧
      (findAppRoutersInFile env filePath).Nodup := by
  intro env filePath n
  constructor
  · rw [findAppRoutersInFile]
    cases h : env.sourceFile filePath with
    | none =>
      simp [h]
    | some sf =>
      rw [mem_dedupKeepFirst, List.mem_filterMap]
      constructor
      · rintro ⟨⟨name, ex, ty⟩, ht, heq⟩
        by_cases hname : name = "AppRouter"
        · subst hname
          cases ty with
          | typeQuery m =>
            simp only [if_pos rfl] at heq
            cases heq
            exact ⟨sf, ex, rfl, ht⟩
          | otherTy t =>
            simp at heq
        · simp [hname] at heq
      · rintro ⟨sf2, ex, hsf, hmem⟩
        cases hsf
        exact ⟨("AppRouter", ex, TypeAnn.typeQuery n), hmem, by simp⟩
  · rw [findAppRoutersInFile]
    cases h : env.sourceFile filePath with
    | none => simp
    | some sf => exact nodup_dedupKeepFirst _

/-- Claim C9 counterexample: at a top-level entry (empty visited set)
the path-mapping cache (`tsConfigPathsCache` of the router parser
module) is not cleared: a stale entry survives the entry step, so the
four named caches are not cleared en masse. -/
theorem C9_counterexample :
    (buildEntryCaches 0 cachesC9).tsConfigPathsCache = [("/w", none)] ∧
    [("/w", none)] ≠ ([] : List (String × Option TsConfigPaths)) :=
  ⟨rfl, by decide⟩

/-- Claim C9 (amended): at every top-level (empty-visited) entry of
the Router Tree Builder the three procedure-analysis caches —
config-root lookup, type-checker (semantic) context, and
enum-resolution — are cleared en masse, the path-mapping cache is left
untouched, and no nested (non-empty-visited) invocation clears any
cache. -/
theorem C9_cache_clearing :
    ∀ (c : AnalysisCaches),
      (buildEntryCaches 0 c).enumResolutionCache = [] ∧
      (buildEntryCaches 0 c).nearestTsConfigPathCache = [] ∧
      (buildEntryCaches 0 c).typeCheckerContextCache = [] ∧
      (buildEntryCaches 0 c).tsConfigPathsCache = c.tsConfigPathsCache ∧
      (∀ n, buildEntryCaches (n + 1) c = c) := by
  intro c
  refine ⟨rfl, rfl, rfl, rfl, fun n => ?_⟩
  simp [buildEntryCaches]

/-- Claim C4 counterexample: with the table declaring `@a/*` before
`@a/b/*`, the specifier `@a/b/x` resolves through the earlier, shorter
literal prefix (`/root/p1/b/x.ts`) although the longer prefix
`@a/b/` also matches and its substitution resolves to the existing
`/root/p2/x.ts`, which longest-prefix matching would have returned. -/
theorem C4_counterexample :
    resolveImport envC4 "@a/b/x" "/root/src/main.ts" = some "/root/p1/b/x.ts" ∧
    jsStartsWith "@a/b/x" (stripTrailingStar "@a/b/*") = true ∧
    resolveFile envC4 (pathResolve "/root"
      (stripTrailingStar "p2/*" ++ "x")) = some "/root/p2/x.ts" :=
  ⟨rfl, rfl, rfl⟩

/-- Claim C4 (amended): non-relative specifiers are matched against
the pattern prefixes in declared table order — not by longest literal
prefix.  The first pattern whose literal prefix (the pattern minus a
trailing `*`) starts the specifier and whose substitution list yields
an existing file wins; within one pattern, the wildcard remainder is
appended to each substitution in declared order and the first
substitution resolving to an existing file wins; and for a
non-relative specifier with an active table, `resolveImport` is
exactly this pattern scan. -/
theorem C4_patterns_first_match :
    (∀ (env : Env) (baseUrl specifier r : String)
      (ps1 ps2 : List (String × List String)) (p : String × List String),
      (∀ q ∈ ps1, jsStartsWith specifier (stripTrailingStar q.1) = false ∨
        resolveImportMappings env baseUrl
          (specifier.drop (stripTrailingStar q.1).length) q.2 = none) →
      jsStartsWith specifier (stripTrailingStar p.1) = true →
      resolveImportMappings env baseUrl
        (specifier.drop (stripTrailingStar p.1).length) p.2 = some r →
      resolveImportPatterns env baseUrl specifier (ps1 ++ p :: ps2) = some r) ∧
    (∀ (env : Env) (baseUrl rest r : String)
      (ms1 ms2 : List String) (m : String),
      (∀ q ∈ ms1, resolveFile env
        (pathResolve baseUrl (stripTrailingStar q ++ rest)) = none) →
      resolveFile env (pathResolve baseUrl (stripTrailingStar m ++ rest)) =
        some r →
      resolveImportMappings env baseUrl rest (ms1 ++ m :: ms2) = some r) ∧
    (∀ (env : Env) (specifier fromFile : String) (cfg : TsConfigPaths),
      jsStartsWith specifier "." = false →
      getTsConfigPaths env fromFile = some cfg →
      resolveImport env specifier fromFile =
        resolveImportPatterns env cfg.baseUrl specifier cfg.paths) := by
  refine ⟨?_, ?_, ?_⟩
  · intro env baseUrl specifier r ps1 ps2 p h1 h2 h3
    induction ps1 with
    | nil =>
      rw [List.nil_append, resolveImportPatterns]
      rw [h2]
      simp only [if_true]
      rw [h3]
    | cons q qs ih =>
      rw [List.cons_append, resolveImportPatterns]
      rcases h1 q (List.mem_cons_self _ _) with hq | hq
      · rw [hq]
        simp only [Bool.false_eq_true, if_false]
        exact ih (fun x hx => h1 x (List.mem_cons.mpr (Or.inr hx)))
      · by_cases hs : jsStartsWith specifier (stripTrailingStar q.1) = true
        · rw [hs]
          simp only [if_true]
          rw [hq]
          exact ih (fun x hx => h1 x (List.mem_cons.mpr (Or.inr hx)))
        · rw [Bool.not_eq_true] at hs
          rw [hs]
          simp only [Bool.false_eq_true, if_false]
          exact ih (fun x hx => h1 x (List.mem_cons.mpr (Or.inr hx)))
  · intro env baseUrl rest r ms1 ms2 m h1 h2
    induction ms1 with
    | nil =>
      rw [List.nil_append, resolveImportMappings]
      rw [h2]
    | cons q qs ih =>
      rw [List.cons_append, resolveImportMappings]
      rw [h1 q (List.mem_cons_self _ _)]
      exact ih (fun x hx => h1 x (List.mem_cons.mpr (Or.inr hx)))
  · intro env specifier fromFile cfg h1 h2
    rw [resolveImport, h1]
    simp only [Bool.false_eq_true, if_false]
    rw [h2]

/-- Claim C5 counterexample: with `{"@app/*": ["./src/*"]}` under
`/root`, when `db.ts` is absent the import resolves to `db.tsx` — not
to `db/index.ts` as the claim's else-branch states. -/
theorem C5_counterexample :
    resolveImport envC5cx "@app/db" "/root/src/main.ts" =
      some "/root/src/db.tsx" ∧
    envC5cx.fileExists "/root/src/db.ts" = false ∧
    envC5cx.fileExists "/root/src/db/index.ts" = true :=
  ⟨rfl, rfl, rfl⟩

/-- Claim C5 (amended): the resolved base's candidates are tried in
order — the base itself, the base with `.ts` then `.tsx` appended,
then `index.ts` / `index.tsx` inside the base — first existing wins;
so with the mapping `{"@app/*": ["./src/*"]}` and base directory
`/root`, importing `@app/db` resolves to `/root/src/db.ts` when that
file exists (and `/root/src/db` itself is not a file), and to
`/root/src/db/index.ts` only when no earlier candidate exists. -/
theorem C5_resolution_order :
    ∀ (files : List (String × SrcFile)),
      (envC5 files).fileExists "/root/src/db" = false →
      (((envC5 files).fileExists "/root/src/db.ts" = true →
        resolveImport (envC5 files) "@app/db" "/root/src/main.ts" =
          some "/root/src/db.ts") ∧
       ((envC5 files).fileExists "/root/src/db.ts" = false →
        (envC5 files).fileExists "/root/src/db.tsx" = false →
        (envC5 files).fileExists "/root/src/db/index.ts" = true →
        resolveImport (envC5 files) "@app/db" "/root/src/main.ts" =
          some "/root/src/db/index.ts")) := by
  intro files h0
  have hlink : ∀ (r : String),
      resolveFile (envC5 files) "/root/src/db" = some r →
      resolveImport (envC5 files) "@app/db" "/root/src/main.ts" = some r := by
    intro r hr
    rw [resolveImport]
    rw [show jsStartsWith "@app/db" "." = false from rfl]
    simp only [Bool.false_eq_true, if_false]
    rw [show getTsConfigPaths (envC5 files) "/root/src/main.ts" =
      some ⟨[("@app/*", ["./src/*"])], "/root"⟩ from rfl]
    dsimp only
    rw [resolveImportPatterns]
    rw [show jsStartsWith "@app/db" (stripTrailingStar "@app/*") = true from rfl]
    simp only [if_true]
    rw [resolveImportMappings]
    rw [show pathResolve "/root" (stripTrailingStar "./src/*" ++
      String.drop "@app/db" (stripTrailingStar "@app/*").length) =
      "/root/src/db" from rfl]
    rw [hr]
  have hcand : resolveFile (envC5 files) "/root/src/db" =
      ["/root/src/db", "/root/src/db.ts", "/root/src/db.tsx",
       "/root/src/db/index.ts", "/root/src/db/index.tsx"].find?
        (fun c => (envC5 files).fileExists c) := rfl
  constructor
  · intro h1
    apply hlink
    rw [hcand]
    rw [List.find?_cons_of_neg _ (by simp [h0])]
    rw [List.find?_cons_of_pos _ (by simp [h1])]
  · intro h1 h2 h3
    apply hlink
    rw [hcand]
    rw [List.find?_cons_of_neg _ (by simp [h0])]
    rw [List.find?_cons_of_neg _ (by simp [h1])]
    rw [List.find?_cons_of_neg _ (by simp [h2])]
    rw [List.find?_cons_of_pos _ (by simp [h3])]

/-- Claim C4 witness: the three parts at concrete inputs — the
declared-order pattern scan, the in-pattern substitution scan, and the
reduction of `resolveImport` to the pattern scan. -/
theorem C4_patterns_first_match_witness :
    resolveImportPatterns envC4 "/root" "@a/b/x"
      [("@a/*", ["p1/*"]), ("@a/b/*", ["p2/*"])] = some "/root/p1/b/x.ts" ∧
    resolveImportMappings envC4 "/root" "b/x" ["p1/*"] =
      some "/root/p1/b/x.ts" ∧
    resolveImport envC4 "@a/b/x" "/root/src/main.ts" =
      resolveImportPatterns envC4
        (TsConfigPaths.mk [("@a/*", ["p1/*"]), ("@a/b/*", ["p2/*"])]
          "/root").baseUrl "@a/b/x"
        (TsConfigPaths.mk [("@a/*", ["p1/*"]), ("@a/b/*", ["p2/*"])]
          "/root").paths :=
  ⟨C4_patterns_first_match.1 envC4 "/root" "@a/b/x" "/root/p1/b/x.ts" []
     [("@a/b/*", ["p2/*"])] ("@a/*", ["p1/*"])
     (fun q hq => absurd hq (List.not_mem_nil q)) rfl rfl,
   C4_patterns_first_match.2.1 envC4 "/root" "b/x" "/root/p1/b/x.ts" [] []
     "p1/*" (fun q hq => absurd hq (List.not_mem_nil q)) rfl,
   C4_patterns_first_match.2.2 envC4 "@a/b/x" "/root/src/main.ts"
     (TsConfigPaths.mk [("@a/*", ["p1/*"]), ("@a/b/*", ["p2/*"])] "/root")
     rfl rfl⟩

/-- Claim C5 witness: in a filesystem where `/root/src/db.ts` exists
(and `/root/src/db` is not a file), `@app/db` resolves to it. -/
theorem C5_resolution_order_witness :
    resolveImport (envC5 [("/root/src/db.ts", sfEmpty),
      ("/root/src/main.ts", sfEmpty)]) "@app/db" "/root/src/main.ts" =
      some "/root/src/db.ts" :=
  (C5_resolution_order
    [("/root/src/db.ts", sfEmpty), ("/root/src/main.ts", sfEmpty)] rfl).1 rfl

/-- Claim C7 counterexample: the collection `const r = router({ ...x })`
has one property (a spread assignment), yet the built node has no
children — the spread property produces no child node, contradicting
"for every property a child node is produced". -/
theorem C7_counterexample :
    (parseRouterFromFile ctxC7 5 "/s.ts" "r" []).1 =
      some (TrpcNode.mk "r" "router" [] (some "/s.ts") none none none) ∧
    sfC7.statements = [Stmt.varDecl "r" (some (.call (.ident "router")
      [.objectLit [.spreadAssign (.ident "x")]])) 1] :=
  ⟨rfl, rfl⟩

/-- Claim C7 (amended): every property assignment produces exactly one
child node; a property assignment whose value matches none of the
recognised shapes (no procedure chain, not an identifier, not a
collection-factory call) is emitted as an empty placeholder collection
node; but spread assignments produce no node, and a shorthand property
whose identifier does not resolve as a collection produces no node —
those members are dropped. -/
theorem C7_member_children :
    (∀ (ctx : Ctx) (fuel : Nat) (pname : PropName) (value : Expr) (line : Nat)
      (fp : String) (imports : List (String × ImportInfo))
      (visited : List String) (sf : SrcFile),
      (parseRouterProp ctx (fuel + 1) (.propAssign pname value line) fp imports
        visited sf).1.length = 1) ∧
    (∀ (ctx : Ctx) (fuel : Nat) (pname : PropName) (value : Expr) (line : Nat)
      (fp : String) (imports : List (String × ImportInfo))
      (visited : List String) (sf : SrcFile),
      analyzeProcedureChain ctx.oracle value sf imports fp ctx.schemaResolver =
        none →
      (∀ n, value ≠ .ident n) →
      (∀ c args, value = .call c args → isRouterCall c = false) →
      parseRouterProp ctx (fuel + 1) (.propAssign pname value line) fp imports
        visited sf =
        ([TrpcNode.mk (propNameText pname) "router" [] (some fp) (some line)
          none none], visited)) ∧
    (∀ (ctx : Ctx) (fuel : Nat) (e : Expr) (fp : String)
      (imports : List (String × ImportInfo)) (visited : List String)
      (sf : SrcFile),
      parseRouterProp ctx (fuel + 1) (.spreadAssign e) fp imports visited sf =
        ([], visited)) ∧
    (∀ (ctx : Ctx) (fuel : Nat) (name : String) (line : Nat) (fp : String)
      (imports : List (String × ImportInfo)) (visited : List String)
      (sf : SrcFile),
      (resolveIdentifierAsRouter ctx fuel name fp imports visited).1 = none →
      (parseRouterProp ctx (fuel + 1) (.shorthand name line) fp imports visited
        sf).1 = []) := by
  refine ⟨?_, ?_, ?_, ?_⟩
  · intro ctx fuel pname value line fp imports visited sf
    cases value <;>
      (rw [parseRouterProp]
       repeat' split) <;>
      first
        | rfl
        | (intros; rename_i hfalse; simp at hfalse)
  · intro ctx fuel pname value line fp imports visited sf hana hident hcall
    cases value
    case ident n => exact absurd rfl (hident n)
    case call c args =>
      rw [parseRouterProp, hana]
      rw [hcall c args rfl]
      simp only [Bool.false_eq_true, if_false]
    all_goals
      rw [parseRouterProp, hana]
    all_goals
      intros
      rename_i hfalse
      simp at hfalse
  · intro ctx fuel e fp imports visited sf
    rfl
  · intro ctx fuel name line fp imports visited sf h
    rw [parseRouterProp]
    rcases hq : resolveIdentifierAsRouter ctx fuel name fp imports visited with
      ⟨oc, v1⟩
    rw [hq] at h
    cases oc with
    | none => rfl
    | some c => simp at h

/-- Claim C7 witness: the amended parts at concrete inputs — a numeric
literal property value becomes a placeholder node (and counts exactly
one child), a spread produces nothing, and an unresolvable shorthand
over fuel 0 produces nothing. -/
theorem C7_member_children_witness :
    (parseRouterProp ctxC7 1 (.propAssign (.id "k") (.numLit "5") 3) "/s.ts"
      [] [] sfC7).1.length = 1 ∧
    parseRouterProp ctxC7 1 (.propAssign (.id "k") (.numLit "5") 3) "/s.ts"
      [] [] sfC7 =
      ([TrpcNode.mk "k" "router" [] (some "/s.ts") (some 3) none none], []) ∧
    parseRouterProp ctxC7 1 (.spreadAssign (.ident "x")) "/s.ts" [] [] sfC7 =
      ([], []) ∧
    (parseRouterProp ctxC7 1 (.shorthand "x" 3) "/s.ts" [] [] sfC7).1 = [] :=
  ⟨C7_member_children.1 ctxC7 0 (.id "k") (.numLit "5") 3 "/s.ts" [] [] sfC7,
   C7_member_children.2.1 ctxC7 0 (.id "k") (.numLit "5") 3 "/s.ts" [] [] sfC7
     rfl (fun _ h => Expr.noConfusion h)
     (fun _ _ h => Expr.noConfusion h),
   C7_member_children.2.2.1 ctxC7 0 (.ident "x") "/s.ts" [] [] sfC7,
   C7_member_children.2.2.2 ctxC7 0 "x" 3 "/s.ts" [] [] sfC7 rfl⟩

/-- The claim's precondition, stated directly: the expression is a
call whose callee is a property access whose accessed member name is
one of the three recognised procedure-kind names; the recognised name
when it holds. -/
def recognizedProcedureMethod : Expr → Option String
  | .call callee _ =>
    match callee with
    | .propAccess _ method =>
      if method = "query" ∨ method = "mutation" ∨ method = "subscription" then
        some method
      else none
    | _ => none
  | _ => none

/-- Claim C6: `analyzeProcedureChain` returns `none` exactly when the
expression is not a call whose callee is a property access named
`query`, `mutation` or `subscription`; and when it returns a result,
that result's kind is the accessed member name. -/
theorem C6_analyze_precondition :
    ∀ (o : Oracle) (node : Expr) (sf : SrcFile)
      (imports : List (String × ImportInfo)) (fp : String)
      (cb : SchemaTextResolver),
      (analyzeProcedureChain o node sf imports fp cb = none ↔
        recognizedProcedureMethod node = none) ∧
      (∀ r, analyzeProcedureChain o node sf imports fp cb = some r →
        recognizedProcedureMethod node = some r.type) := by
  intro o node sf imports fp cb
  cases node
  case call callee args =>
    cases callee
    case propAccess recv method =>
      rw [analyzeProcedureChain, recognizedProcedureMethod]
      by_cases hm : method = "query" ∨ method = "mutation" ∨
        method = "subscription"
      · rw [if_pos hm, if_pos hm]
        refine ⟨by simp, fun r hr => ?_⟩
        cases hr
        rfl
      · rw [if_neg hm, if_neg hm]
        exact ⟨by simp, fun r hr => by simp at hr⟩
    all_goals
      exact ⟨by simp [analyzeProcedureChain, recognizedProcedureMethod],
        fun r hr => by simp [analyzeProcedureChain] at hr⟩
  all_goals
    exact ⟨by simp [analyzeProcedureChain, recognizedProcedureMethod],
      fun r hr => by simp [analyzeProcedureChain] at hr⟩

/-- Claim C6 witness: the second part applied to the concrete
procedure call `publicProcedure.query(() => "hi")`. -/
theorem C6_analyze_precondition_witness :
    recognizedProcedureMethod exprC1 =
      some (ProcedureAnalysisResult.mk "query" none (some "string")).type :=
  (C6_analyze_precondition o0 exprC1 sfEmpty [] "/t.ts" cbId).2
    (ProcedureAnalysisResult.mk "query" none (some "string")) rfl

/-- Claim C1 counterexample: the chain `publicProcedure.query(() => "hi")`
has no explicit `.output(...)` call; structural inference over the
resolver's return expression yields the informative shape `string`; yet
with a type checker reporting `QueryProcedure<\x7b output: number; \x7d>`
the analyzer's final output schema is `number` - the semantic inference
(step 4) overrode an informative structural result, contradicting the
spec's "only when the structural result was uninformative". -/
theorem C1_counterexample :
    findMethodInChain exprC1 "output" = none ∧
    inferOutputSchemaFromResolver oC1 exprC1 "/t.ts" none = some "string" ∧
    isNonInformativeInferredType "string" = false ∧
    analyzeProcedureChain oC1 exprC1 sfEmpty [] "/t.ts" cbId =
      some ⟨"query", none, some "number"⟩ :=
  ⟨rfl, rfl, rfl, rfl⟩

/-- Claim C1 (amended): precedence in the procedure analyzer. (1) An
explicit `.input(...)` schema found in the chain always determines the
input schema (resolved through the callback). (2) An explicit
`.output(...)` schema, when its resolved text is nonempty, always
determines the output schema. (3) When no explicit output exists, a
semantic (procedure-type) output that is nonempty and informative
determines the output schema - even if the structural inference would
have produced an informative result. (4) When no explicit output exists
and the semantic output is absent, empty, or non-informative, the output
schema is exactly the structural inference over the resolver. -/
theorem C1_precedence :
    ∀ (o : Oracle) (receiver : Expr) (method : String) (args : List Expr)
      (sf : SrcFile) (imports : List (String × ImportInfo)) (fp : String)
      (cb : SchemaTextResolver),
      (method = "query" ∨ method = "mutation" ∨ method = "subscription") →
      ((∀ s, findMethodInChain receiver "input" = some s → s ≠ "" →
        (analyzeProcedureChain o (.call (.propAccess receiver method) args) sf
          imports fp cb).bind (fun r => r.inputSchema) =
          some (cb s sf imports fp)) ∧
       (∀ s, findMethodInChain receiver "output" = some s → s ≠ "" →
        cb s sf imports fp ≠ "" →
        (analyzeProcedureChain o (.call (.propAccess receiver method) args) sf
          imports fp cb).bind (fun r => r.outputSchema) =
          some (cb s sf imports fp)) ∧
       (findMethodInChain receiver "output" = none →
        ∀ t, (inferSchemasFromProcedureType o
            (.call (.propAccess receiver method) args) fp).bind
            (fun p => p.outputSchema) = some t →
          t ≠ "" → isNonInformativeInferredType t = false →
          (analyzeProcedureChain o (.call (.propAccess receiver method) args)
            sf imports fp cb).bind (fun r => r.outputSchema) = some t) ∧
       (findMethodInChain receiver "output" = none →
        (truthy ((inferSchemasFromProcedureType o
            (.call (.propAccess receiver method) args) fp).bind
            (fun p => p.outputSchema)) = false ∨
         isNonInformativeInferredType
           (((inferSchemasFromProcedureType o
              (.call (.propAccess receiver method) args) fp).bind
              (fun p => p.outputSchema)).getD "") = true) →
        (analyzeProcedureChain o (.call (.propAccess receiver method) args) sf
          imports fp cb).bind (fun r => r.outputSchema) =
          inferOutputSchemaFromResolver o
            (.call (.propAccess receiver method) args) fp
            (if truthy (findMethodInChain receiver "input") = true then
              (findMethodInChain receiver "input").map
                (fun s => cb s sf imports fp)
             else findMethodInChain receiver "input"))) := by
  intro o receiver method args sf imports fp cb hm
  refine ⟨?_, ?_, ?_, ?_⟩
  · intro s h1 h2
    rw [analyzeProcedureChain, if_pos hm]
    simp [h1, truthy, h2]
  · intro s h1 h2 h3
    rw [analyzeProcedureChain, if_pos hm]
    simp [h1, truthy, h2, h3]
  · intro hout t hpts ht hti
    rw [analyzeProcedureChain, if_pos hm]
    simp [hout, truthy, hpts, ht, hti]
  · intro hout hun
    rw [analyzeProcedureChain, if_pos hm]
    cases hp : (inferSchemasFromProcedureType o
        (.call (.propAccess receiver method) args) fp).bind
        (fun p => p.outputSchema) with
    | none => simp [hout, truthy, hp]
    | some t =>
      rw [hp] at hun
      rcases hun with h | h
      · have ht : t = "" := by simpa [truthy] using h
        subst ht
        simp [hout, truthy, hp]
      · simp only [Option.getD_some] at h
        simp [hout, truthy, hp, h]

/-- Claim C1 witness: part (2) applied to a chain with an explicit
`.output(z.number())` call, and part (3) applied to the counterexample
chain where the semantic output `number` wins. -/
theorem C1_precedence_witness :
    (analyzeProcedureChain o0
        (.call (.propAccess
          (.call (.propAccess (.ident "t") "output") [.other "z.number()"])
          "query") []) sfEmpty [] "/w.ts" cbId).bind
      (fun r => r.outputSchema) = some "z.number()" ∧
    (analyzeProcedureChain oC1 exprC1 sfEmpty [] "/t.ts" cbId).bind
      (fun r => r.outputSchema) = some "number" :=
  ⟨(C1_precedence o0
      (.call (.propAccess (.ident "t") "output") [.other "z.number()"])
      "query" [] sfEmpty [] "/w.ts" cbId (Or.inl rfl)).2.1 "z.number()" rfl
      (by decide) (by decide),
   (C1_precedence oC1 (.ident "publicProcedure") "query"
      [.arrow (.exprBody (.strLit "hi"))] sfEmpty [] "/t.ts" cbId
      (Or.inl rfl)).2.2.1 rfl "number" rfl (by decide) (by decide)⟩

end Trpc
